import Mathlib

/-!
# The PAM configuration resource and its JSON codec

A shallow embedding of `api/types/pam.go` (the resource model) and
`lib/services/pam.go` (the codec), followed by theorems about them.

Go values are embedded as follows.

* A method with a pointer receiver that mutates the receiver and returns an
  `error` becomes a function returning the new receiver together with
  `Option TraceError` (`none` is Go's `nil` error).
* A function returning `(value, error)` becomes a function into `Except`.
* `[]byte` holding JSON text is a `List Char`.
* `int64` is the subtype of `Int` of the 64-bit two's-complement range.
* `map[string]string` is `Option` of an association list, `none` being the
  `nil` map.

Declarations that the two source files use without containing them are either
fields of `Externals` (constants and the metadata defaulting, about which the
source says nothing) or definitions whose comment starts with
"Modelled from the spec".
-/

namespace Teleport

/-! ## Errors (package `trace`) -/

/-- Error classes of package `trace`; only `BadParameter` is created by the
two source files, the other constructor stands for every other class. -/
inductive ErrorClass where
  | BadParameter
  | Other (name : String)
  deriving DecidableEq, Repr

/-- A Go `error` produced through package `trace`: its class and message. -/
structure TraceError where
  kind : ErrorClass
  message : String
  deriving DecidableEq, Repr

namespace trace

/-- The call `trace.BadParameter(message)`. -/
def BadParameter (message : String) : TraceError :=
  { kind := ErrorClass.BadParameter, message := message }

/-- The call `trace.Wrap(err)`: the error keeps its class and message. -/
def Wrap (err : TraceError) : TraceError := err

end trace

/-! ## Scalars -/

/-- Go's `int64`. -/
abbrev Int64 : Type := { n : Int // -9223372036854775808 ≤ n ∧ n < 9223372036854775808 }

/-- Builds an `int64` from an integer, if it is in range. -/
def Int64.ofInt? (n : Int) : Option Int64 :=
  if h : -9223372036854775808 ≤ n ∧ n < 9223372036854775808 then some ⟨n, h⟩ else none

/-- The zero value of `int64`. -/
def Int64.zero : Int64 := ⟨0, by decide⟩

/-- Modelled from the spec: `time.Time`, the "timestamp" of the spec, declared
outside the source files.  A timestamp is its offset from the zero instant. -/
structure Time where
  sinceZero : Int
  deriving DecidableEq, Repr

/-- The zero value of `time.Time`. -/
def Time.zero : Time := { sinceZero := 0 }

/-- Modelled from the spec: `Time.IsZero`, "expires zero meaning do not
override". -/
def Time.IsZero (t : Time) : Bool := t.sinceZero == 0

/-- Go's `map[string]string`; `none` is the `nil` map. -/
abbrev StringMap : Type := Option (List (String × String))

/-! ## Resource model (`api/types/pam.go`) -/

/-- Modelled from the spec: the type `Metadata`, declared outside the source
files: "generic resource metadata - name, namespace, plus expiry and
resourceID". -/
structure Metadata where
  Name : String
  Namespace : String
  Expires : Time
  ID : Int64
  deriving DecidableEq, Repr

/-- The zero value of `Metadata`. -/
def Metadata.zero : Metadata :=
  { Name := "", Namespace := "", Expires := Time.zero, ID := Int64.zero }

/-- Modelled from the spec: `Metadata.SetExpiry`, the setter of the expiry. -/
def Metadata.SetExpiry (m : Metadata) (expires : Time) : Metadata :=
  { m with Expires := expires }

/-- Modelled from the spec: `Metadata.Expiry`, the getter of the expiry. -/
def Metadata.Expiry (m : Metadata) : Time := m.Expires

/-- The type `PAMConfigSpecV1`. -/
structure PAMConfigSpecV1 where
  Enabled : Bool
  ServiceName : String
  UsePAMAuth : Bool
  Environment : StringMap
  deriving DecidableEq, Repr

/-- The zero value `PAMConfigSpecV1{}`. -/
def PAMConfigSpecV1.zero : PAMConfigSpecV1 :=
  { Enabled := false, ServiceName := "", UsePAMAuth := false, Environment := none }

/-- The type `PAMConfigV1`. -/
structure PAMConfigV1 where
  Kind : String
  SubKind : String
  Version : String
  Metadata : Metadata
  Spec : PAMConfigSpecV1
  deriving DecidableEq, Repr

/-- The zero value of `PAMConfigV1`. -/
def PAMConfigV1.zero : PAMConfigV1 :=
  { Kind := "", SubKind := "", Version := "", Metadata := Metadata.zero,
    Spec := PAMConfigSpecV1.zero }

/-- What `api/types/pam.go` refers to without declaring it: four constants and
the defaulting of the metadata, `Metadata.CheckAndSetDefaults`, which mutates
the metadata and returns an error. -/
structure Externals where
  KindPAMConfig : String
  V1 : String
  MetaNamePAMConfig : String
  defaultsNamespace : String
  metadataCheckAndSetDefaults : Metadata → Metadata × Option TraceError

namespace PAMConfigV1

def GetEnabled (c : PAMConfigV1) : Bool := c.Spec.Enabled

def SetEnabled (c : PAMConfigV1) (enabled : Bool) : PAMConfigV1 :=
  { c with Spec := { c.Spec with Enabled := enabled } }

def GetServiceName (c : PAMConfigV1) : String := c.Spec.ServiceName

def SetServiceName (c : PAMConfigV1) (serviceName : String) : PAMConfigV1 :=
  { c with Spec := { c.Spec with ServiceName := serviceName } }

def GetUsePAMAuth (c : PAMConfigV1) : Bool := c.Spec.UsePAMAuth

def SetUsePAMAuth (c : PAMConfigV1) (enabled : Bool) : PAMConfigV1 :=
  { c with Spec := { c.Spec with UsePAMAuth := enabled } }

def GetEnvironment (c : PAMConfigV1) : StringMap := c.Spec.Environment

def SetEnvironment (c : PAMConfigV1) (environment : StringMap) : PAMConfigV1 :=
  { c with Spec := { c.Spec with Environment := environment } }

/-- The method `CheckAndSetDefaults`: the receiver after the call and the
returned error. -/
def CheckAndSetDefaults (E : Externals) (c : PAMConfigV1) : PAMConfigV1 × Option TraceError :=
  let r := E.metadataCheckAndSetDefaults c.Metadata
  let c := { c with Metadata := r.1 }
  match r.2 with
  | some err => (c, some (trace.Wrap err))
  | none =>
    if c.Spec.ServiceName = "" then
      (c, some (trace.BadParameter "service name cannot be empty"))
    else
      (c, none)

def GetVersion (c : PAMConfigV1) : String := c.Version

def GetName (c : PAMConfigV1) : String := c.Metadata.Name

def SetName (c : PAMConfigV1) (e : String) : PAMConfigV1 :=
  { c with Metadata := { c.Metadata with Name := e } }

def SetExpiry (c : PAMConfigV1) (expires : Time) : PAMConfigV1 :=
  { c with Metadata := c.Metadata.SetExpiry expires }

def Expiry (c : PAMConfigV1) : Time := c.Metadata.Expiry

def GetMetadata (c : PAMConfigV1) : Teleport.Metadata := c.Metadata

def GetResourceID (c : PAMConfigV1) : Int64 := c.Metadata.ID

def SetResourceID (c : PAMConfigV1) (id : Int64) : PAMConfigV1 :=
  { c with Metadata := { c.Metadata with ID := id } }

def GetKind (c : PAMConfigV1) : String := c.Kind

def GetSubKind (c : PAMConfigV1) : String := c.SubKind

def SetSubKind (c : PAMConfigV1) (sk : String) : PAMConfigV1 :=
  { c with SubKind := sk }

end PAMConfigV1

/-- The metadata `NewPAMConfig` gives to the resource it builds. -/
def newMetadata (E : Externals) : Metadata :=
  { Metadata.zero with Name := E.MetaNamePAMConfig, Namespace := E.defaultsNamespace }

/-- The function `NewPAMConfig`. -/
def NewPAMConfig (E : Externals) (spec : PAMConfigSpecV1) : Except TraceError PAMConfigV1 :=
  let conf : PAMConfigV1 :=
    { Kind := E.KindPAMConfig
      SubKind := ""
      Version := E.V1
      Metadata := newMetadata E
      Spec := spec }
  match PAMConfigV1.CheckAndSetDefaults E conf with
  | (_, some err) => Except.error (trace.Wrap err)
  | (conf, none) => Except.ok conf

/-- The function `DefaultPAMConfig`. -/
def DefaultPAMConfig (E : Externals) : Except TraceError PAMConfigV1 :=
  NewPAMConfig E PAMConfigSpecV1.zero

/-! ## JSON documents and their text

`encoding/json` and the helpers of `lib/utils` are outside the source files.
The text layer below is a JSON writer and reader over documents whose numbers
are integers; text with a fraction or an exponent is not read. -/

/-- A byte slice holding JSON text. -/
abbrev Bytes : Type := List Char

/-- A JSON document. The members of an object are kept in textual order. -/
inductive Json where
  | null
  | bool (b : Bool)
  | num (n : Int)
  | str (s : String)
  | arr (xs : List Json)
  | obj (ms : List (String × Json))
  deriving Repr

/-- The hexadecimal digit, in lower case, of a number below 16. -/
def hexDigit (d : Nat) : Char :=
  if d < 10 then Char.ofNat (48 + d) else Char.ofNat (87 + d)

/-- The value of a hexadecimal digit. -/
def hexValue (c : Char) : Option Nat :=
  if 48 ≤ c.toNat ∧ c.toNat ≤ 57 then some (c.toNat - 48)
  else if 97 ≤ c.toNat ∧ c.toNat ≤ 102 then some (c.toNat - 87)
  else if 65 ≤ c.toNat ∧ c.toNat ≤ 70 then some (c.toNat - 55)
  else none

/-- The four hexadecimal digits of a number below 65536. -/
def hex4 (n : Nat) : List Char :=
  [hexDigit (n / 4096 % 16), hexDigit (n / 256 % 16), hexDigit (n / 16 % 16), hexDigit (n % 16)]

/-- The number written by four hexadecimal digits. -/
def hex4Value (a b c d : Char) : Option Nat :=
  match hexValue a, hexValue b, hexValue c, hexValue d with
  | some x, some y, some z, some w => some (x * 4096 + y * 256 + z * 16 + w)
  | _, _, _, _ => none

/-- How the writer puts one character of a string: quote, backslash and the
control characters are escaped, and so are `<`, `>`, `&`, U+2028 and U+2029. -/
def escapeChar (c : Char) : List Char :=
  if c = '"' then ['\\', '"']
  else if c = '\\' then ['\\', '\\']
  else if c = '\n' then ['\\', 'n']
  else if c = '\r' then ['\\', 'r']
  else if c = '\t' then ['\\', 't']
  else if c.toNat < 32 ∨ c = '<' ∨ c = '>' ∨ c = '&' ∨ c.toNat = 8232 ∨ c.toNat = 8233 then
    '\\' :: 'u' :: hex4 c.toNat
  else [c]

/-- The escaped characters of a string. -/
def escape : List Char → List Char
  | [] => []
  | c :: cs => escapeChar c ++ escape cs

/-- A string as JSON text. -/
def renderString (s : String) : List Char := '"' :: (escape s.data ++ ['"'])

/-- The decimal digit of a number below 10. -/
def digitChar (d : Nat) : Char := Char.ofNat (48 + d)

/-- The decimal digits of `n`, most significant first; `fuel` bounds the
number of digits. -/
def renderNatFuel : Nat → Nat → List Char
  | 0, _ => []
  | fuel + 1, n =>
    if n < 10 then [digitChar n] else renderNatFuel fuel (n / 10) ++ [digitChar (n % 10)]

/-- A natural number as JSON text. -/
def renderNat (n : Nat) : List Char := renderNatFuel (n + 1) n

/-- An integer as JSON text. -/
def renderInt : Int → List Char
  | Int.ofNat n => renderNat n
  | Int.negSucc n => '-' :: renderNat (n + 1)

mutual
/-- A document as compact JSON text. -/
def render : Json → List Char
  | Json.null => ['n', 'u', 'l', 'l']
  | Json.bool true => ['t', 'r', 'u', 'e']
  | Json.bool false => ['f', 'a', 'l', 's', 'e']
  | Json.num n => renderInt n
  | Json.str s => renderString s
  | Json.arr xs => '[' :: (renderElems xs ++ [']'])
  | Json.obj ms => '{' :: (renderMembers ms ++ ['}'])
/-- The elements of an array, separated by commas. -/
def renderElems : List Json → List Char
  | [] => []
  | x :: xs =>
    match xs with
    | [] => render x
    | _ :: _ => render x ++ ',' :: renderElems xs
/-- The members of an object, separated by commas. -/
def renderMembers : List (String × Json) → List Char
  | [] => []
  | (k, v) :: ms =>
    match ms with
    | [] => renderString k ++ ':' :: render v
    | _ :: _ => renderString k ++ ':' :: (render v ++ ',' :: renderMembers ms)
end

/-- JSON white space. -/
def isWs (c : Char) : Bool := c = ' ' ∨ c = '\t' ∨ c = '\n' ∨ c = '\r'

/-- Drops leading white space. -/
def skipWs : List Char → List Char
  | [] => []
  | c :: cs => if isWs c then skipWs cs else c :: cs

/-- The character a two-character escape stands for. -/
def simpleEscape (e : Char) : Option Char :=
  if e = '"' then some '"'
  else if e = '\\' then some '\\'
  else if e = '/' then some '/'
  else if e = 'b' then some (Char.ofNat 8)
  else if e = 'f' then some (Char.ofNat 12)
  else if e = 'n' then some '\n'
  else if e = 'r' then some '\r'
  else if e = 't' then some '\t'
  else none

/-- The character a `\u` escape stands for; a surrogate is read as U+FFFD
(surrogate pairs are not combined). -/
def decodeUnit (n : Nat) : Char :=
  if 55296 ≤ n ∧ n < 57344 then Char.ofNat 65533 else Char.ofNat n

/-- Reads a string after its opening quote: the characters of the string and
the text after the closing quote. -/
def parseStringBody : List Char → Option (List Char × List Char)
  | [] => none
  | c :: cs =>
    if c = '"' then some ([], cs)
    else if c = '\\' then
      match cs with
      | [] => none
      | e :: cs1 =>
        if e = 'u' then
          match cs1 with
          | a :: b :: c2 :: d :: cs2 =>
            match hex4Value a b c2 d with
            | none => none
            | some n =>
              match parseStringBody cs2 with
              | none => none
              | some (s, r) => some (decodeUnit n :: s, r)
          | _ => none
        else
          match simpleEscape e with
          | none => none
          | some x =>
            match parseStringBody cs1 with
            | none => none
            | some (s, r) => some (x :: s, r)
    else if c.toNat < 32 then none
    else
      match parseStringBody cs with
      | none => none
      | some (s, r) => some (c :: s, r)

/-- The value of a decimal digit. -/
def digitValue (c : Char) : Option Nat :=
  if 48 ≤ c.toNat ∧ c.toNat ≤ 57 then some (c.toNat - 48) else none

/-- Reads decimal digits onto the number read so far. -/
def parseDigits : Nat → List Char → Nat × List Char
  | acc, [] => (acc, [])
  | acc, c :: cs =>
    match digitValue c with
    | some d => parseDigits (acc * 10 + d) cs
    | none => (acc, c :: cs)

/-- Reads a natural number; a leading zero may not be followed by a digit. -/
def parseNat : List Char → Option (Nat × List Char)
  | [] => none
  | c :: cs =>
    match digitValue c with
    | none => none
    | some d =>
      if d = 0 then
        match cs with
        | [] => some (0, [])
        | c1 :: cs1 => if (digitValue c1).isSome then none else some (0, c1 :: cs1)
      else some (parseDigits d cs)

/-- Whether the text after the digits of a number ends the number: a fraction
or an exponent does not. -/
def endsNumber : List Char → Bool
  | [] => true
  | c :: _ => !(c = '.' ∨ c = 'e' ∨ c = 'E')

/-- Reads an integer. -/
def parseNumber (cs : List Char) : Option (Int × List Char) :=
  match cs with
  | [] => none
  | c :: cs1 =>
    if c = '-' then
      match parseNat cs1 with
      | none => none
      | some (n, r) => if endsNumber r then some (-(n : Int), r) else none
    else
      match parseNat (c :: cs1) with
      | none => none
      | some (n, r) => if endsNumber r then some ((n : Int), r) else none

/-- Reads the rest of a literal. -/
def expect (lit : List Char) (cs : List Char) : Option (List Char) :=
  if lit.isPrefixOf cs then some (cs.drop lit.length) else none

mutual
/-- Reads one value; `fuel` bounds the number of nested calls. -/
def parseValue : Nat → List Char → Option (Json × List Char)
  | 0, _ => none
  | fuel + 1, cs =>
    match skipWs cs with
    | [] => none
    | c :: rest =>
      if c = '"' then
        match parseStringBody rest with
        | none => none
        | some (s, r) => some (Json.str (String.mk s), r)
      else if c = '[' then
        match skipWs rest with
        | [] => none
        | c1 :: rest1 =>
          if c1 = ']' then some (Json.arr [], rest1)
          else
            match parseElems fuel (c1 :: rest1) with
            | none => none
            | some (xs, r) => some (Json.arr xs, r)
      else if c = '{' then
        match skipWs rest with
        | [] => none
        | c1 :: rest1 =>
          if c1 = '}' then some (Json.obj [], rest1)
          else
            match parseMembers fuel (c1 :: rest1) with
            | none => none
            | some (ms, r) => some (Json.obj ms, r)
      else if c = 'n' then
        match expect ['u', 'l', 'l'] rest with
        | none => none
        | some r => some (Json.null, r)
      else if c = 't' then
        match expect ['r', 'u', 'e'] rest with
        | none => none
        | some r => some (Json.bool true, r)
      else if c = 'f' then
        match expect ['a', 'l', 's', 'e'] rest with
        | none => none
        | some r => some (Json.bool false, r)
      else
        match parseNumber (c :: rest) with
        | none => none
        | some (n, r) => some (Json.num n, r)
/-- Reads the elements of a non-empty array and its closing bracket. -/
def parseElems : Nat → List Char → Option (List Json × List Char)
  | 0, _ => none
  | fuel + 1, cs =>
    match parseValue fuel cs with
    | none => none
    | some (x, r) =>
      match skipWs r with
      | [] => none
      | c :: rest =>
        if c = ']' then some ([x], rest)
        else if c = ',' then
          match parseElems fuel rest with
          | none => none
          | some (xs, r1) => some (x :: xs, r1)
        else none
/-- Reads the members of a non-empty object and its closing brace. -/
def parseMembers : Nat → List Char → Option (List (String × Json) × List Char)
  | 0, _ => none
  | fuel + 1, cs =>
    match skipWs cs with
    | [] => none
    | q :: cs1 =>
      if q = '"' then
        match parseStringBody cs1 with
        | none => none
        | some (k, r) =>
          match skipWs r with
          | [] => none
          | colon :: r1 =>
            if colon = ':' then
              match parseValue fuel r1 with
              | none => none
              | some (v, r2) =>
                match skipWs r2 with
                | [] => none
                | c :: rest =>
                  if c = '}' then some ([(String.mk k, v)], rest)
                  else if c = ',' then
                    match parseMembers fuel rest with
                    | none => none
                    | some (ms, r3) => some ((String.mk k, v) :: ms, r3)
                  else none
            else none
      else none
end

/-- Reads a whole JSON text: one value, white space around it allowed. The
fuel, twice the length of the text and two more, is enough for every text. -/
def parseJSON (bytes : Bytes) : Except String Json :=
  match parseValue (2 * bytes.length + 2) bytes with
  | none => Except.error "invalid character in JSON input"
  | some (doc, rest) =>
    match skipWs rest with
    | [] => Except.ok doc
    | _ :: _ => Except.error "invalid character after top-level value"

/-! ## Wire form of the resource

`PAMConfigV1` and `PAMConfigSpecV1` carry their member names in the struct
tags of `api/types/pam.go`. -/

/-- Inserts `(k, v)` among entries ordered by key. -/
def insertByKey (k v : String) : List (String × String) → List (String × String)
  | [] => [(k, v)]
  | (k1, v1) :: rest =>
    if k < k1 then (k, v) :: (k1, v1) :: rest else (k1, v1) :: insertByKey k v rest

/-- The entries of a map ordered by key, the order in which `json.Marshal`
writes them. -/
def sortByKey : List (String × String) → List (String × String)
  | [] => []
  | (k, v) :: rest => insertByKey k v (sortByKey rest)

/-- The document of a `map[string]string`: `null` for the `nil` map. -/
def StringMap.toJson : StringMap → Json
  | none => Json.null
  | some entries => Json.obj ((sortByKey entries).map fun kv => (kv.1, Json.str kv.2))

/-- The document of a `PAMConfigSpecV1`, by its struct tags. -/
def PAMConfigSpecV1.toJson (s : PAMConfigSpecV1) : Json :=
  Json.obj
    [ ("enabled", Json.bool s.Enabled),
      ("service_name", Json.str s.ServiceName),
      ("use_pam_auth", Json.bool s.UsePAMAuth),
      ("environment", StringMap.toJson s.Environment) ]

/-- Modelled from the spec: the document of a `Metadata`, "object - opaque to
this core, produced by the metadata collaborator": the name and namespace,
and the expiry and the resource ID when they are not zero. -/
def Metadata.toJson (m : Metadata) : Json :=
  Json.obj
    ([("name", Json.str m.Name), ("namespace", Json.str m.Namespace)]
      ++ (if m.Expires.IsZero then [] else [("expires", Json.num m.Expires.sinceZero)])
      ++ (if m.ID.val = 0 then [] else [("id", Json.num m.ID.val)]))

/-- The document of a `PAMConfigV1`, by its struct tags; `sub_kind` has
`omitempty`. -/
def PAMConfigV1.toJson (c : PAMConfigV1) : Json :=
  Json.obj
    ([("kind", Json.str c.Kind)]
      ++ (if c.SubKind = "" then [] else [("sub_kind", Json.str c.SubKind)])
      ++ [ ("version", Json.str c.Version),
           ("metadata", Metadata.toJson c.Metadata),
           ("spec", PAMConfigSpecV1.toJson c.Spec) ])

/-- Decoding the members of an object one after the other into a Go value,
stopping at the first error. -/
def decodeObject {α : Type} (field : α → String → Json → Except String α) :
    List (String × Json) → α → Except String α
  | [], a => Except.ok a
  | (k, v) :: ms, a =>
    match field a k v with
    | Except.error e => Except.error e
    | Except.ok a1 => decodeObject field ms a1

/-- Decoding into a Go `string`: `null` leaves the value as it is. -/
def decodeString (v : Json) (old : String) : Except String String :=
  match v with
  | Json.str s => Except.ok s
  | Json.null => Except.ok old
  | _ => Except.error "json: cannot unmarshal value into Go value of type string"

/-- Decoding into a Go `bool`: `null` leaves the value as it is. -/
def decodeBool (v : Json) (old : Bool) : Except String Bool :=
  match v with
  | Json.bool b => Except.ok b
  | Json.null => Except.ok old
  | _ => Except.error "json: cannot unmarshal value into Go value of type bool"

/-- Decoding into a Go `int64`: `null` leaves the value as it is. -/
def decodeInt64 (v : Json) (old : Int64) : Except String Int64 :=
  match v with
  | Json.num n =>
    match Int64.ofInt? n with
    | some i => Except.ok i
    | none => Except.error "json: cannot unmarshal number into Go value of type int64"
  | Json.null => Except.ok old
  | _ => Except.error "json: cannot unmarshal value into Go value of type int64"

/-- Decoding into a timestamp: `null` leaves the value as it is. -/
def decodeTime (v : Json) (old : Time) : Except String Time :=
  match v with
  | Json.num n => Except.ok { sinceZero := n }
  | Json.null => Except.ok old
  | _ => Except.error "json: cannot unmarshal value into Go value of type time.Time"

/-- The assignment `m[k] = v` on the entries of a map. -/
def mapSet (k v : String) : List (String × String) → List (String × String)
  | [] => [(k, v)]
  | (k1, v1) :: rest => if k1 = k then (k, v) :: rest else (k1, v1) :: mapSet k v rest

/-- Decoding one member of an object into an entry of a `map[string]string`. -/
def decodeEntry (entries : List (String × String)) (k : String) (v : Json) :
    Except String (List (String × String)) :=
  match decodeString v "" with
  | Except.error e => Except.error e
  | Except.ok s => Except.ok (mapSet k s entries)

/-- Decoding into a `map[string]string`: `null` gives the `nil` map, an
object adds its members to the map. -/
def decodeStringMap (v : Json) (old : StringMap) : Except String StringMap :=
  match v with
  | Json.null => Except.ok none
  | Json.obj ms =>
    match decodeObject decodeEntry ms (old.getD []) with
    | Except.error e => Except.error e
    | Except.ok entries => Except.ok (some entries)
  | _ => Except.error "json: cannot unmarshal value into Go value of type map[string]string"

/-- Decoding into a Go struct: `null` leaves the struct as it is, an object
is decoded member by member, anything else is a type mismatch. -/
def decodeStruct {α : Type} (field : α → String → Json → Except String α)
    (v : Json) (old : α) : Except String α :=
  match v with
  | Json.null => Except.ok old
  | Json.obj ms => decodeObject field ms old
  | _ => Except.error "json: cannot unmarshal value into Go struct"

/-- Modelled from the spec: decoding one member into a `Metadata`, the reverse
of `Metadata.toJson`; a member with another name is skipped. -/
def Metadata.decodeField (m : Metadata) (k : String) (v : Json) : Except String Metadata :=
  if k = "name" then (decodeString v m.Name).map fun s => { m with Name := s }
  else if k = "namespace" then (decodeString v m.Namespace).map fun s => { m with Namespace := s }
  else if k = "expires" then (decodeTime v m.Expires).map fun t => { m with Expires := t }
  else if k = "id" then (decodeInt64 v m.ID).map fun i => { m with ID := i }
  else Except.ok m

/-- Decoding one member into a `PAMConfigSpecV1`, by its struct tags; a member
with another name is skipped. -/
def PAMConfigSpecV1.decodeField (s : PAMConfigSpecV1) (k : String) (v : Json) :
    Except String PAMConfigSpecV1 :=
  if k = "enabled" then (decodeBool v s.Enabled).map fun b => { s with Enabled := b }
  else if k = "service_name" then
    (decodeString v s.ServiceName).map fun x => { s with ServiceName := x }
  else if k = "use_pam_auth" then
    (decodeBool v s.UsePAMAuth).map fun b => { s with UsePAMAuth := b }
  else if k = "environment" then
    (decodeStringMap v s.Environment).map fun e => { s with Environment := e }
  else Except.ok s

/-- Decoding one member into a `PAMConfigV1`, by its struct tags; a member
with another name is skipped. -/
def PAMConfigV1.decodeField (c : PAMConfigV1) (k : String) (v : Json) :
    Except String PAMConfigV1 :=
  if k = "kind" then (decodeString v c.Kind).map fun s => { c with Kind := s }
  else if k = "sub_kind" then (decodeString v c.SubKind).map fun s => { c with SubKind := s }
  else if k = "version" then (decodeString v c.Version).map fun s => { c with Version := s }
  else if k = "metadata" then
    (decodeStruct Metadata.decodeField v c.Metadata).map fun m => { c with Metadata := m }
  else if k = "spec" then
    (decodeStruct PAMConfigSpecV1.decodeField v c.Spec).map fun s => { c with Spec := s }
  else Except.ok c

/-- Decoding a document into a `PAMConfigV1`. -/
def PAMConfigV1.fromJson (doc : Json) (config : PAMConfigV1) : Except String PAMConfigV1 :=
  decodeStruct PAMConfigV1.decodeField doc config

/-! ## Codec (`lib/services/pam.go`) -/

/-- The types a schema can ask for. -/
inductive SchemaType where
  | object
  | boolean
  | string
  deriving DecidableEq, Repr

/-- A schema of the shape of `PAMConfigSchema`: the type of the document,
whether members outside `properties` are allowed, and the type of each
declared property. -/
structure Schema where
  type : SchemaType
  additionalProperties : Bool
  properties : List (String × SchemaType)
  deriving Repr

/-- The constant `PAMConfigSchema`, taken as the four properties it lists. In
the source the last property is followed by a comma, so the text of the
constant is not JSON, and a schema engine that reads it strictly refuses it
before looking at the input: every call with validation then fails. The
theorems below that concern validation conclude a failure with
`BadParameter`, which holds under both readings; none asserts that a call
with validation succeeds. -/
def PAMConfigSchema : Schema :=
  { type := SchemaType.object
    additionalProperties := false
    properties :=
      [ ("enabled", SchemaType.boolean),
        ("service_name", SchemaType.string),
        ("use_pam_auth", SchemaType.boolean),
        ("environment", SchemaType.object) ] }

/-- Whether a document has the type a schema asks for. -/
def SchemaType.admits : SchemaType → Json → Bool
  | SchemaType.object, Json.obj _ => true
  | SchemaType.boolean, Json.bool _ => true
  | SchemaType.string, Json.str _ => true
  | _, _ => false

/-- Modelled from the spec: the check of one member against a schema: a
declared property must have its declared type, and "additional properties
forbidden" rejects a member that is not declared. -/
def Schema.checkMember (schema : Schema) (k : String) (v : Json) : Except String Unit :=
  match schema.properties.lookup k with
  | some t =>
    if t.admits v then Except.ok () else Except.error ("invalid type of property " ++ k)
  | none =>
    if schema.additionalProperties then Except.ok ()
    else Except.error ("additional property " ++ k ++ " is not allowed")

/-- The check of the members of an object, stopping at the first violation. -/
def Schema.checkMembers (schema : Schema) : List (String × Json) → Except String Unit
  | [] => Except.ok ()
  | (k, v) :: ms =>
    match schema.checkMember k v with
    | Except.error e => Except.error e
    | Except.ok _ => schema.checkMembers ms

/-- Modelled from the spec: the JSON-schema validation engine, outside the
source files: the document must have the type of the schema and each of its
members must pass. -/
def Schema.validate (schema : Schema) (doc : Json) : Except String Unit :=
  if schema.type.admits doc then
    match doc with
    | Json.obj ms => schema.checkMembers ms
    | _ => Except.ok ()
  else Except.error "invalid type of the document"

/-- Modelled from the spec: `utils.FastUnmarshal`, which "deserializes bytes
directly into the resource shape, failing on any structural/type mismatch". -/
def FastUnmarshal (bytes : Bytes) (config : PAMConfigV1) : Except String PAMConfigV1 :=
  match parseJSON bytes with
  | Except.error e => Except.error e
  | Except.ok doc => PAMConfigV1.fromJson doc config

/-- Modelled from the spec: `utils.UnmarshalWithSchema`, which "validates
bytes against the declared schema before materializing the resource; any
schema violation or decode failure fails". -/
def UnmarshalWithSchema (schema : Schema) (config : PAMConfigV1) (bytes : Bytes) :
    Except String PAMConfigV1 :=
  match parseJSON bytes with
  | Except.error e => Except.error e
  | Except.ok doc =>
    match schema.validate doc with
    | Except.error e => Except.error e
    | Except.ok _ => PAMConfigV1.fromJson doc config

/-- Modelled from the spec: the resolved options, "skipValidation: bool,
id: int64, expires: time". -/
structure MarshalConfig where
  SkipValidation : Bool
  ID : Int64
  Expires : Time
  deriving DecidableEq, Repr

/-- The defaults of the options: "skipValidation=false, id=0, expires=zero". -/
def MarshalConfig.zero : MarshalConfig :=
  { SkipValidation := false, ID := Int64.zero, Expires := Time.zero }

/-- Modelled from the spec: one option of the options-collection: it changes
the configuration or fails. -/
abbrev MarshalOption : Type := MarshalConfig → Except TraceError MarshalConfig

/-- Modelled from the spec: `CollectOptions`, which resolves the options in
order from the defaults and fails with the error of the first option that
fails. -/
def CollectOptions : List MarshalOption → MarshalConfig → Except TraceError MarshalConfig
  | [], cfg => Except.ok cfg
  | o :: opts, cfg =>
    match o cfg with
    | Except.error err => Except.error (trace.Wrap err)
    | Except.ok cfg1 => CollectOptions opts cfg1

/-- Modelled from the spec: the option `skipValidation`. -/
def SkipValidation : MarshalOption := fun cfg => Except.ok { cfg with SkipValidation := true }

/-- Modelled from the spec: the option `id`. -/
def WithResourceID (id : Int64) : MarshalOption := fun cfg => Except.ok { cfg with ID := id }

/-- Modelled from the spec: the option `expires`. -/
def WithExpires (expires : Time) : MarshalOption :=
  fun cfg => Except.ok { cfg with Expires := expires }

/-- The function `UnmarshalPAMConfig`. (The source declares `config` with the
type `types.PAMConfigV3`, which `api/types/pam.go` does not have; it is taken
as `PAMConfigV1`, the implementation of `PAMConfig` there.) -/
def UnmarshalPAMConfig (bytes : Bytes) (opts : List MarshalOption) :
    Except TraceError PAMConfigV1 :=
  let config : PAMConfigV1 := PAMConfigV1.zero
  if bytes.length = 0 then
    Except.error (trace.BadParameter "missing resource data")
  else
    match CollectOptions opts MarshalConfig.zero with
    | Except.error err => Except.error (trace.Wrap err)
    | Except.ok cfg =>
      let decoded :=
        if cfg.SkipValidation then FastUnmarshal bytes config
        else UnmarshalWithSchema PAMConfigSchema config bytes
      match decoded with
      | Except.error err => Except.error (trace.BadParameter err)
      | Except.ok config =>
        let config := if cfg.ID.val ≠ 0 then config.SetResourceID cfg.ID else config
        let config := if ¬ cfg.Expires.IsZero then config.SetExpiry cfg.Expires else config
        Except.ok config

/-- The function `MarshalPAMConfig`: `json.Marshal` of the resource. -/
def MarshalPAMConfig (c : PAMConfigV1) (_opts : List MarshalOption) : Except TraceError Bytes :=
  Except.ok (render c.toJson)

/-- An instance of `Externals` for evaluating the code on concrete inputs:
the metadata defaulting requires a name and fills in an empty namespace. -/
def sampleExternals : Externals :=
  { KindPAMConfig := "pam_config"
    V1 := "v1"
    MetaNamePAMConfig := "pam_config"
    defaultsNamespace := "default"
    metadataCheckAndSetDefaults := fun m =>
      if m.Name = "" then (m, some (trace.BadParameter "missing parameter Name"))
      else if m.Namespace = "" then ({ m with Namespace := "default" }, none)
      else (m, none) }

/-- The spec of the example: enabled, service name `sshd`, no PAM auth,
environment `FOO=bar`. -/
def sampleSpec : PAMConfigSpecV1 :=
  { Enabled := true, ServiceName := "sshd", UsePAMAuth := false,
    Environment := some [("FOO", "bar")] }

/-- The members of an object among which one of the four fields of the schema
has a value of another type than the schema declares. -/
def typeMismatch (ms : List (String × Json)) : Prop :=
  (∃ v, ("enabled", v) ∈ ms ∧ ∀ b, v ≠ Json.bool b) ∨
  (∃ v, ("use_pam_auth", v) ∈ ms ∧ ∀ b, v ≠ Json.bool b) ∨
  (∃ v, ("service_name", v) ∈ ms ∧ ∀ s, v ≠ Json.str s) ∨
  (∃ v, ("environment", v) ∈ ms ∧ ∀ e, v ≠ Json.obj e)

/-- The text of the example with an extra property. -/
def sampleExtraField : Bytes :=
  "\x7b\"spec\":\x7b\"service_name\":\"sshd\",\"extra_field\":1\x7d\x7d".toList

/-- The text of an example whose `enabled` is a number. -/
def sampleWrongType : Bytes := "\x7b\"enabled\":1\x7d".toList

/-- A resource that breaks the invariant: its service name is empty. -/
def sampleInvalid : PAMConfigV1 :=
  { PAMConfigV1.zero with Kind := "pam_config", Version := "v1" }

/-- A resource whose metadata has a name but no namespace yet. -/
def sampleUnchecked : PAMConfigV1 :=
  { PAMConfigV1.zero with Metadata := { Metadata.zero with Name := "pam" }, Spec := sampleSpec }

/-- The resource ID 42 of the example. -/
def sampleID : Int64 := ⟨42, by decide⟩

/-- A timestamp that is not the zero instant. -/
def sampleExpires : Time := { sinceZero := 1700000000 }

/-- What `UnmarshalPAMConfig` decodes from `sampleExtraField`. -/
def sampleDecoded : PAMConfigV1 :=
  { PAMConfigV1.zero with Spec := { PAMConfigSpecV1.zero with ServiceName := "sshd" } }

/-! ## Theorems: the resource model -/

theorem checkAndSetDefaults_error (E : Externals) (c : PAMConfigV1) :
    (PAMConfigV1.CheckAndSetDefaults E c).2 =
      match (E.metadataCheckAndSetDefaults c.Metadata).2 with
      | some err => some (trace.Wrap err)
      | none =>
        if c.Spec.ServiceName = "" then some (trace.BadParameter "service name cannot be empty")
        else none := by
  unfold PAMConfigV1.CheckAndSetDefaults
  cases h : (E.metadataCheckAndSetDefaults c.Metadata).2 with
  | some err => simp [h]
  | none =>
    by_cases hs : c.Spec.ServiceName = "" <;> simp [h, hs]

theorem checkAndSetDefaults_state (E : Externals) (c : PAMConfigV1) :
    (PAMConfigV1.CheckAndSetDefaults E c).1 =
      { c with Metadata := (E.metadataCheckAndSetDefaults c.Metadata).1 } := by
  unfold PAMConfigV1.CheckAndSetDefaults
  cases h : (E.metadataCheckAndSetDefaults c.Metadata).2 with
  | some err => simp [h]
  | none =>
    by_cases hs : c.Spec.ServiceName = "" <;> simp [h, hs]

/-- Claim C2. For every spec whose service name is empty, `NewPAMConfig`
returns no resource and fails, and the error is of class `BadParameter`: it
is either the error "service name cannot be empty" or the error of the
metadata defaulting on the metadata `NewPAMConfig` builds, which is assumed
to be of class `BadParameter` whenever there is one. -/
theorem newPAMConfig_empty_serviceName (E : Externals) (spec : PAMConfigSpecV1)
    (hname : spec.ServiceName = "")
    (hmeta : ∀ err, (E.metadataCheckAndSetDefaults (newMetadata E)).2 = some err →
      err.kind = ErrorClass.BadParameter) :
    ∃ err, NewPAMConfig E spec = Except.error err ∧ err.kind = ErrorClass.BadParameter := by
  unfold NewPAMConfig PAMConfigV1.CheckAndSetDefaults
  cases h : (E.metadataCheckAndSetDefaults (newMetadata E)).2 with
  | some err =>
    refine ⟨err, ?_, hmeta err h⟩
    simp [h, trace.Wrap]
  | none =>
    refine ⟨trace.BadParameter "service name cannot be empty", ?_, rfl⟩
    simp [h, hname, trace.Wrap]

theorem newPAMConfig_empty_serviceName_witness :
    ∃ err, NewPAMConfig sampleExternals PAMConfigSpecV1.zero = Except.error err ∧
      err.kind = ErrorClass.BadParameter :=
  newPAMConfig_empty_serviceName sampleExternals PAMConfigSpecV1.zero rfl
    (by intro err h; simp [sampleExternals, newMetadata] at h)

/-- Claim C3. For every spec with a non-empty service name, when the metadata
defaulting accepts the name and namespace `NewPAMConfig` sets (no error, both
kept), `NewPAMConfig` succeeds and the resource has the kind `KindPAMConfig`,
the version `V1`, the name `MetaNamePAMConfig`, the default namespace and the
given spec, so the four getters return the fields of the input. -/
theorem newPAMConfig_builds (E : Externals) (spec : PAMConfigSpecV1)
    (hname : spec.ServiceName ≠ "")
    (hok : (E.metadataCheckAndSetDefaults (newMetadata E)).2 = none)
    (hkeepName : (E.metadataCheckAndSetDefaults (newMetadata E)).1.Name = E.MetaNamePAMConfig)
    (hkeepNamespace :
      (E.metadataCheckAndSetDefaults (newMetadata E)).1.Namespace = E.defaultsNamespace) :
    ∃ c, NewPAMConfig E spec = Except.ok c ∧
      c.GetKind = E.KindPAMConfig ∧ c.GetVersion = E.V1 ∧
      c.GetName = E.MetaNamePAMConfig ∧ c.GetMetadata.Namespace = E.defaultsNamespace ∧
      c.Spec = spec ∧
      c.GetEnabled = spec.Enabled ∧ c.GetServiceName = spec.ServiceName ∧
      c.GetUsePAMAuth = spec.UsePAMAuth ∧ c.GetEnvironment = spec.Environment := by
  refine ⟨{ Kind := E.KindPAMConfig, SubKind := "", Version := E.V1,
            Metadata := (E.metadataCheckAndSetDefaults (newMetadata E)).1, Spec := spec },
          ?_, rfl, rfl, hkeepName, hkeepNamespace, rfl, rfl, rfl, rfl, rfl⟩
  unfold NewPAMConfig PAMConfigV1.CheckAndSetDefaults
  simp [hok, hname]

theorem newPAMConfig_builds_witness :
    ∃ c, NewPAMConfig sampleExternals sampleSpec = Except.ok c ∧
      c.GetKind = sampleExternals.KindPAMConfig ∧ c.GetVersion = sampleExternals.V1 ∧
      c.GetName = sampleExternals.MetaNamePAMConfig ∧
      c.GetMetadata.Namespace = sampleExternals.defaultsNamespace ∧
      c.Spec = sampleSpec ∧
      c.GetEnabled = sampleSpec.Enabled ∧ c.GetServiceName = sampleSpec.ServiceName ∧
      c.GetUsePAMAuth = sampleSpec.UsePAMAuth ∧ c.GetEnvironment = sampleSpec.Environment :=
  newPAMConfig_builds sampleExternals sampleSpec (by decide) (by decide) (by decide) (by decide)

/-- Claim C4, which the code does not meet. `DefaultPAMConfig` never returns a
resource: whatever the metadata defaulting does, the call fails, and when the
metadata defaulting succeeds the error is "service name cannot be empty". No
service name `sshd` is filled in. -/
theorem defaultPAMConfig_fails (E : Externals) :
    ∃ err, DefaultPAMConfig E = Except.error err ∧
      ((E.metadataCheckAndSetDefaults (newMetadata E)).2 = none →
        err = trace.BadParameter "service name cannot be empty") := by
  unfold DefaultPAMConfig NewPAMConfig PAMConfigV1.CheckAndSetDefaults
  cases h : (E.metadataCheckAndSetDefaults (newMetadata E)).2 with
  | some err => exact ⟨err, by simp [h, trace.Wrap], by simp⟩
  | none =>
    exact ⟨trace.BadParameter "service name cannot be empty",
      by simp [h, PAMConfigSpecV1.zero, trace.Wrap], fun _ => rfl⟩

/-- Claim C5. `CheckAndSetDefaults` returns an error exactly when the metadata
defaulting returns one or the service name is empty; an error of the metadata
defaulting is returned as it is, whatever the service name; otherwise an empty
service name gives `BadParameter` "service name cannot be empty"; and when no
error is returned the service name is not empty. -/
theorem checkAndSetDefaults_fails_iff (E : Externals) (c : PAMConfigV1) :
    ((PAMConfigV1.CheckAndSetDefaults E c).2 ≠ none ↔
      ((E.metadataCheckAndSetDefaults c.Metadata).2 ≠ none ∨ c.Spec.ServiceName = "")) ∧
    (∀ err, (E.metadataCheckAndSetDefaults c.Metadata).2 = some err →
      (PAMConfigV1.CheckAndSetDefaults E c).2 = some err) ∧
    ((E.metadataCheckAndSetDefaults c.Metadata).2 = none → c.Spec.ServiceName = "" →
      (PAMConfigV1.CheckAndSetDefaults E c).2 =
        some (trace.BadParameter "service name cannot be empty")) ∧
    ((PAMConfigV1.CheckAndSetDefaults E c).2 = none →
      (PAMConfigV1.CheckAndSetDefaults E c).1.GetServiceName ≠ "" ∧ c.GetServiceName ≠ "") := by
  rw [checkAndSetDefaults_error, checkAndSetDefaults_state]
  cases h : (E.metadataCheckAndSetDefaults c.Metadata).2 with
  | some err => simp [trace.Wrap]
  | none =>
    by_cases hs : c.Spec.ServiceName = "" <;> simp [hs, PAMConfigV1.GetServiceName]

/-- Claim C6. When the metadata defaulting is idempotent, so is
`CheckAndSetDefaults`: a second call leaves the resource as the first call
left it and returns what the first call returned; in particular, after a call
without error a second call changes nothing and returns no error. -/
theorem checkAndSetDefaults_idempotent (E : Externals) (c : PAMConfigV1)
    (hmeta : ∀ m, E.metadataCheckAndSetDefaults (E.metadataCheckAndSetDefaults m).1 =
      E.metadataCheckAndSetDefaults m) :
    PAMConfigV1.CheckAndSetDefaults E (PAMConfigV1.CheckAndSetDefaults E c).1 =
      PAMConfigV1.CheckAndSetDefaults E c ∧
    ((PAMConfigV1.CheckAndSetDefaults E c).2 = none →
      PAMConfigV1.CheckAndSetDefaults E (PAMConfigV1.CheckAndSetDefaults E c).1 =
        ((PAMConfigV1.CheckAndSetDefaults E c).1, none)) := by
  have key : PAMConfigV1.CheckAndSetDefaults E (PAMConfigV1.CheckAndSetDefaults E c).1 =
      PAMConfigV1.CheckAndSetDefaults E c := by
    apply Prod.ext
    · rw [checkAndSetDefaults_state, checkAndSetDefaults_state]
      simp [hmeta]
    · rw [checkAndSetDefaults_error, checkAndSetDefaults_error, checkAndSetDefaults_state]
      simp [hmeta]
  refine ⟨key, fun h => ?_⟩
  rw [key]
  exact Prod.ext rfl h

theorem sampleExternals_idempotent (m : Metadata) :
    sampleExternals.metadataCheckAndSetDefaults (sampleExternals.metadataCheckAndSetDefaults m).1 =
      sampleExternals.metadataCheckAndSetDefaults m := by
  simp only [sampleExternals]
  by_cases h1 : m.Name = ""
  · simp [h1]
  · by_cases h2 : m.Namespace = "" <;> simp [h1, h2]

theorem checkAndSetDefaults_idempotent_witness :
    PAMConfigV1.CheckAndSetDefaults sampleExternals
        (PAMConfigV1.CheckAndSetDefaults sampleExternals sampleUnchecked).1 =
      PAMConfigV1.CheckAndSetDefaults sampleExternals sampleUnchecked ∧
    ((PAMConfigV1.CheckAndSetDefaults sampleExternals sampleUnchecked).2 = none →
      PAMConfigV1.CheckAndSetDefaults sampleExternals
          (PAMConfigV1.CheckAndSetDefaults sampleExternals sampleUnchecked).1 =
        ((PAMConfigV1.CheckAndSetDefaults sampleExternals sampleUnchecked).1, none)) :=
  checkAndSetDefaults_idempotent sampleExternals sampleUnchecked sampleExternals_idempotent

/-! ## Theorems: the JSON text layer -/

theorem hexValue_hexDigit : ∀ d, d < 16 → hexValue (hexDigit d) = some d := by decide

theorem hex4Value_hex4 (n : Nat) (h : n < 65536) :
    ∃ a b c d, hex4 n = [a, b, c, d] ∧ hex4Value a b c d = some n := by
  refine ⟨_, _, _, _, rfl, ?_⟩
  unfold hex4Value
  rw [hexValue_hexDigit _ (Nat.mod_lt _ (by decide)), hexValue_hexDigit _ (Nat.mod_lt _ (by decide)),
    hexValue_hexDigit _ (Nat.mod_lt _ (by decide)), hexValue_hexDigit _ (Nat.mod_lt _ (by decide))]
  simp only [Option.some.injEq]
  omega

theorem decodeUnit_toNat (c : Char) (h : c.toNat < 55296) : decodeUnit c.toNat = c := by
  unfold decodeUnit
  rw [if_neg (by omega)]
  exact Char.ofNat_toNat c

theorem parseStringBody_quote (rest : List Char) :
    parseStringBody ('"' :: rest) = some ([], rest) := by
  rw [parseStringBody.eq_def]; simp

theorem parseStringBody_simple (e x : Char) (tail s r : List Char) (he : e ≠ 'u')
    (hx : simpleEscape e = some x) (ih : parseStringBody tail = some (s, r)) :
    parseStringBody ('\\' :: e :: tail) = some (x :: s, r) := by
  rw [parseStringBody.eq_def]; simp [he, hx, ih]

theorem parseStringBody_unicode (c : Char) (h : c.toNat < 55296) (tail : List Char)
    (s r : List Char) (ih : parseStringBody tail = some (s, r)) :
    parseStringBody ('\\' :: 'u' :: (hex4 c.toNat ++ tail)) = some (c :: s, r) := by
  obtain ⟨a, b, x, d, h4, hv⟩ := hex4Value_hex4 c.toNat (by omega)
  rw [h4]
  simp only [List.cons_append, List.nil_append]
  rw [parseStringBody.eq_def]
  simp [hv, ih, decodeUnit_toNat c h]

theorem parseStringBody_plain (c : Char) (tail s r : List Char) (h1 : c ≠ '"') (h2 : c ≠ '\\')
    (h3 : ¬ c.toNat < 32) (ih : parseStringBody tail = some (s, r)) :
    parseStringBody (c :: tail) = some (c :: s, r) := by
  rw [parseStringBody.eq_def]; simp [h1, h2, h3, ih]

theorem parseStringBody_escape (s rest : List Char) :
    parseStringBody (escape s ++ '"' :: rest) = some (s, rest) := by
  induction s with
  | nil => exact parseStringBody_quote rest
  | cons c cs ih =>
    rw [escape, List.append_assoc]
    unfold escapeChar
    by_cases h1 : c = '"'
    · subst h1; rw [if_pos rfl]
      exact parseStringBody_simple _ _ _ _ _ (by decide) (by decide) ih
    rw [if_neg h1]
    by_cases h2 : c = '\\'
    · subst h2; rw [if_pos rfl]
      exact parseStringBody_simple _ _ _ _ _ (by decide) (by decide) ih
    rw [if_neg h2]
    by_cases h3 : c = '\n'
    · subst h3; rw [if_pos rfl]
      exact parseStringBody_simple _ _ _ _ _ (by decide) (by decide) ih
    rw [if_neg h3]
    by_cases h4 : c = '\r'
    · subst h4; rw [if_pos rfl]
      exact parseStringBody_simple _ _ _ _ _ (by decide) (by decide) ih
    rw [if_neg h4]
    by_cases h5 : c = '\t'
    · subst h5; rw [if_pos rfl]
      exact parseStringBody_simple _ _ _ _ _ (by decide) (by decide) ih
    rw [if_neg h5]
    by_cases h6 : c.toNat < 32 ∨ c = '<' ∨ c = '>' ∨ c = '&' ∨ c.toNat = 8232 ∨ c.toNat = 8233
    · rw [if_pos h6]
      have hlt : c.toNat < 55296 := by
        rcases h6 with h | h | h | h | h | h
        · omega
        · subst h; decide
        · subst h; decide
        · subst h; decide
        · omega
        · omega
      exact parseStringBody_unicode c hlt _ _ _ ih
    · rw [if_neg h6]
      have h7 : ¬ c.toNat < 32 := fun h => h6 (Or.inl h)
      exact parseStringBody_plain c _ _ _ h1 h2 h7 ih

theorem parseStringBody_renderString (s : String) (rest : List Char) :
    ∃ body, renderString s ++ rest = '"' :: body ∧ parseStringBody body = some (s.data, rest) := by
  refine ⟨escape s.data ++ '"' :: rest, ?_, parseStringBody_escape s.data rest⟩
  simp [renderString]


theorem digitValue_digitChar : ∀ d, d < 10 → digitValue (digitChar d) = some d := by decide

theorem parseDigits_cons_digit (acc d : Nat) (hd : d < 10) (rest : List Char) :
    parseDigits acc (digitChar d :: rest) = parseDigits (acc * 10 + d) rest := by
  rw [parseDigits, digitValue_digitChar d hd]

theorem renderNatFuel_spec : ∀ fuel n, n < fuel →
    ∃ d tail, renderNatFuel fuel n = digitChar d :: tail ∧ d < 10 ∧
      (d = 0 → n = 0 ∧ tail = []) ∧
      ∀ rest, parseDigits d (tail ++ rest) = parseDigits n rest := by
  intro fuel
  induction fuel with
  | zero => intro n h; omega
  | succ f ih =>
    intro n hn
    rw [renderNatFuel]
    by_cases h10 : n < 10
    · rw [if_pos h10]
      exact ⟨n, [], rfl, h10, fun h => ⟨h, rfl⟩, fun rest => rfl⟩
    · rw [if_neg h10]
      obtain ⟨d, tail, hr, hd, hz, hp⟩ := ih (n / 10) (by omega)
      refine ⟨d, tail ++ [digitChar (n % 10)], by rw [hr]; rfl, hd, ?_, ?_⟩
      · intro h0
        have := (hz h0).1
        omega
      · intro rest
        rw [List.append_assoc, hp, List.singleton_append,
          parseDigits_cons_digit _ _ (Nat.mod_lt _ (by decide))]
        congr 1
        omega

theorem parseDigits_stop (n : Nat) (rest : List Char)
    (hrest : ∀ c t, rest = c :: t → digitValue c = none) :
    parseDigits n rest = (n, rest) := by
  cases rest with
  | nil => rfl
  | cons c t => rw [parseDigits, hrest c t rfl]

theorem parseNat_renderNat (n : Nat) (rest : List Char)
    (hrest : ∀ c t, rest = c :: t → digitValue c = none) :
    ∃ d tail, renderNat n = digitChar d :: tail ∧ d < 10 ∧
      parseNat (renderNat n ++ rest) = some (n, rest) := by
  obtain ⟨d, tail, hr, hd, hz, hp⟩ := renderNatFuel_spec (n + 1) n (by omega)
  refine ⟨d, tail, hr, hd, ?_⟩
  unfold renderNat
  rw [hr, List.cons_append, parseNat.eq_def]
  simp only [digitValue_digitChar d hd]
  by_cases h0 : d = 0
  · obtain ⟨hn, ht⟩ := hz h0
    subst hn ht
    cases rest with
    | nil => simp [h0]
    | cons c t => simp [h0, hrest c t rfl]
  · simp only [h0, if_false]
    rw [hp, parseDigits_stop n rest hrest]

theorem sep_digitValue : ∀ c : Char, (c = ',' ∨ c = ']' ∨ c = '}') → digitValue c = none := by
  intro c h; rcases h with h | h | h <;> subst h <;> decide

theorem sep_endsNumber (rest : List Char)
    (hsep : ∀ c t, rest = c :: t → c = ',' ∨ c = ']' ∨ c = '}') : endsNumber rest = true := by
  cases rest with
  | nil => rfl
  | cons c t => rcases hsep c t rfl with h | h | h <;> subst h <;> simp [endsNumber]

theorem digitChar_ne_minus : ∀ d, d < 10 → digitChar d ≠ '-' := by decide

theorem parseNumber_renderInt (n : Int) (rest : List Char)
    (hsep : ∀ c t, rest = c :: t → c = ',' ∨ c = ']' ∨ c = '}') :
    parseNumber (renderInt n ++ rest) = some (n, rest) := by
  have hrest : ∀ c t, rest = c :: t → digitValue c = none :=
    fun c t h => sep_digitValue c (hsep c t h)
  cases n with
  | ofNat m =>
    obtain ⟨d, tail, hr, hd, hp⟩ := parseNat_renderNat m rest hrest
    have hp2 := hp
    rw [hr, List.cons_append] at hp2
    simp only [renderInt]
    rw [hr, List.cons_append, parseNumber, if_neg (digitChar_ne_minus d hd), hp2]
    simp [sep_endsNumber rest hsep]
  | negSucc m =>
    obtain ⟨d, tail, hr, hd, hp⟩ := parseNat_renderNat (m + 1) rest hrest
    simp only [renderInt, List.cons_append]
    rw [parseNumber, if_pos rfl, hp]
    simp [sep_endsNumber rest hsep, Int.negSucc_eq]


theorem skipWs_cons (c : Char) (t : List Char) (h : isWs c = false) :
    skipWs (c :: t) = c :: t := by
  simp [skipWs, h]

theorem parseValue_string (f : Nat) (body s r : List Char)
    (h : parseStringBody body = some (s, r)) :
    parseValue (f + 1) ('"' :: body) = some (Json.str (String.mk s), r) := by
  rw [parseValue, skipWs_cons _ _ (by decide)]
  simp [h]

theorem parseValue_null (f : Nat) (rest : List Char) :
    parseValue (f + 1) ('n' :: 'u' :: 'l' :: 'l' :: rest) = some (Json.null, rest) := by
  rw [parseValue, skipWs_cons _ _ (by decide)]
  simp [expect]

theorem parseValue_true (f : Nat) (rest : List Char) :
    parseValue (f + 1) ('t' :: 'r' :: 'u' :: 'e' :: rest) = some (Json.bool true, rest) := by
  rw [parseValue, skipWs_cons _ _ (by decide)]
  simp [expect]

theorem parseValue_false (f : Nat) (rest : List Char) :
    parseValue (f + 1) ('f' :: 'a' :: 'l' :: 's' :: 'e' :: rest) =
      some (Json.bool false, rest) := by
  rw [parseValue, skipWs_cons _ _ (by decide)]
  simp [expect]

theorem parseValue_number (f : Nat) (c : Char) (t : List Char) (n : Int) (r : List Char)
    (hws : isWs c = false) (h1 : c ≠ '"') (h2 : c ≠ '[') (h3 : c ≠ '{') (h4 : c ≠ 'n')
    (h5 : c ≠ 't') (h6 : c ≠ 'f') (h : parseNumber (c :: t) = some (n, r)) :
    parseValue (f + 1) (c :: t) = some (Json.num n, r) := by
  rw [parseValue, skipWs_cons _ _ hws]
  simp [h1, h2, h3, h4, h5, h6, h]

theorem parseValue_arr_nil (f : Nat) (rest : List Char) :
    parseValue (f + 1) ('[' :: ']' :: rest) = some (Json.arr [], rest) := by
  rw [parseValue, skipWs_cons _ _ (by decide)]
  simp [skipWs_cons _ _ (show isWs ']' = false by decide)]

theorem parseValue_arr (f : Nat) (c : Char) (t : List Char) (xs : List Json) (r : List Char)
    (hws : isWs c = false) (hc : c ≠ ']') (h : parseElems f (c :: t) = some (xs, r)) :
    parseValue (f + 1) ('[' :: c :: t) = some (Json.arr xs, r) := by
  rw [parseValue, skipWs_cons _ _ (by decide)]
  simp [skipWs_cons _ _ hws, hc, h]

theorem parseValue_obj_nil (f : Nat) (rest : List Char) :
    parseValue (f + 1) ('{' :: '}' :: rest) = some (Json.obj [], rest) := by
  rw [parseValue, skipWs_cons _ _ (by decide)]
  simp [skipWs_cons _ _ (show isWs '}' = false by decide)]

theorem parseValue_obj (f : Nat) (c : Char) (t : List Char) (ms : List (String × Json))
    (r : List Char) (hws : isWs c = false) (hc : c ≠ '}')
    (h : parseMembers f (c :: t) = some (ms, r)) :
    parseValue (f + 1) ('{' :: c :: t) = some (Json.obj ms, r) := by
  rw [parseValue, skipWs_cons _ _ (by decide)]
  simp [skipWs_cons _ _ hws, hc, h]

theorem parseElems_last (f : Nat) (cs : List Char) (x : Json) (rest : List Char)
    (h : parseValue f cs = some (x, ']' :: rest)) :
    parseElems (f + 1) cs = some ([x], rest) := by
  rw [parseElems, h]
  simp [skipWs_cons _ _ (show isWs ']' = false by decide)]

theorem parseElems_more (f : Nat) (cs : List Char) (x : Json) (xs : List Json)
    (r r1 : List Char) (h : parseValue f cs = some (x, ',' :: r))
    (h1 : parseElems f r = some (xs, r1)) :
    parseElems (f + 1) cs = some (x :: xs, r1) := by
  rw [parseElems, h]
  simp [skipWs_cons _ _ (show isWs ',' = false by decide), h1]

theorem parseMembers_last (f : Nat) (body k r1 rest : List Char) (v : Json)
    (hk : parseStringBody body = some (k, ':' :: r1))
    (hv : parseValue f r1 = some (v, '}' :: rest)) :
    parseMembers (f + 1) ('"' :: body) = some ([(String.mk k, v)], rest) := by
  rw [parseMembers, skipWs_cons _ _ (by decide)]
  simp [hk, hv, skipWs_cons _ _ (show isWs ':' = false by decide),
    skipWs_cons _ _ (show isWs '}' = false by decide)]

theorem parseMembers_more (f : Nat) (body k r1 r2 r3 : List Char) (v : Json)
    (ms : List (String × Json))
    (hk : parseStringBody body = some (k, ':' :: r1))
    (hv : parseValue f r1 = some (v, ',' :: r2))
    (hm : parseMembers f r2 = some (ms, r3)) :
    parseMembers (f + 1) ('"' :: body) = some ((String.mk k, v) :: ms, r3) := by
  rw [parseMembers, skipWs_cons _ _ (by decide)]
  simp [hk, hv, hm, skipWs_cons _ _ (show isWs ':' = false by decide),
    skipWs_cons _ _ (show isWs ',' = false by decide)]


theorem digitChar_head : ∀ d, d < 10 →
    isWs (digitChar d) = false ∧ digitChar d ≠ '"' ∧ digitChar d ≠ '[' ∧ digitChar d ≠ '{' ∧
    digitChar d ≠ 'n' ∧ digitChar d ≠ 't' ∧ digitChar d ≠ 'f' ∧
    digitChar d ≠ ']' ∧ digitChar d ≠ '}' := by decide

/-- The first character of a rendered integer sends the reader to the number branch. -/
theorem renderInt_head (n : Int) :
    ∃ c t, renderInt n = c :: t ∧ isWs c = false ∧ c ≠ '"' ∧ c ≠ '[' ∧ c ≠ '{' ∧
      c ≠ 'n' ∧ c ≠ 't' ∧ c ≠ 'f' ∧ c ≠ ']' ∧ c ≠ '}' := by
  cases n with
  | ofNat m =>
    obtain ⟨d, tail, hr, hd, -⟩ := renderNatFuel_spec (m + 1) m (by omega)
    exact ⟨digitChar d, tail, hr, digitChar_head d hd⟩
  | negSucc m =>
    exact ⟨'-', renderNat (m + 1), rfl, by decide, by decide, by decide, by decide, by decide,
      by decide, by decide, by decide, by decide⟩

theorem render_head (j : Json) :
    ∃ c t, render j = c :: t ∧ isWs c = false ∧ c ≠ ']' ∧ c ≠ '}' := by
  cases j with
  | null => exact ⟨'n', _, by rw [render], by decide, by decide, by decide⟩
  | bool b =>
    cases b
    · exact ⟨'f', _, by rw [render], by decide, by decide, by decide⟩
    · exact ⟨'t', _, by rw [render], by decide, by decide, by decide⟩
  | num n =>
    obtain ⟨c, t, h, hws, -, -, -, -, -, -, h1, h2⟩ := renderInt_head n
    exact ⟨c, t, by rw [render, h], hws, h1, h2⟩
  | str s => exact ⟨'"', _, by rw [render, renderString], by decide, by decide, by decide⟩
  | arr xs => exact ⟨'[', _, by rw [render], by decide, by decide, by decide⟩
  | obj ms => exact ⟨'{', _, by rw [render], by decide, by decide, by decide⟩

theorem renderElems_head (x : Json) (xs : List Json) :
    ∃ c t, renderElems (x :: xs) = c :: t ∧ isWs c = false ∧ c ≠ ']' := by
  obtain ⟨c, t, h, hws, h1, -⟩ := render_head x
  cases xs with
  | nil => exact ⟨c, t, by rw [renderElems, h], hws, h1⟩
  | cons y ys => exact ⟨c, _, by rw [renderElems, h]; rfl, hws, h1⟩

theorem sep_cons (c0 : Char) (r : List Char) (h0 : c0 = ',' ∨ c0 = ']' ∨ c0 = '}') :
    ∀ c t, c0 :: r = c :: t → c = ',' ∨ c = ']' ∨ c = '}' := by
  intro c t h
  cases h
  exact h0

mutual
theorem parseValue_render : ∀ (j : Json) (fuel : Nat) (rest : List Char),
    (∀ c t, rest = c :: t → c = ',' ∨ c = ']' ∨ c = '}') →
    2 * (render j).length + 1 ≤ fuel →
    parseValue fuel (render j ++ rest) = some (j, rest)
  | Json.null, fuel, rest, _, hf => by
    obtain ⟨f, rfl⟩ : ∃ f, fuel = f + 1 := ⟨fuel - 1, by omega⟩
    exact parseValue_null f rest
  | Json.bool true, fuel, rest, _, hf => by
    obtain ⟨f, rfl⟩ : ∃ f, fuel = f + 1 := ⟨fuel - 1, by omega⟩
    exact parseValue_true f rest
  | Json.bool false, fuel, rest, _, hf => by
    obtain ⟨f, rfl⟩ : ∃ f, fuel = f + 1 := ⟨fuel - 1, by omega⟩
    exact parseValue_false f rest
  | Json.num n, fuel, rest, hsep, hf => by
    obtain ⟨f, rfl⟩ : ∃ f, fuel = f + 1 := ⟨fuel - 1, by omega⟩
    obtain ⟨c, t, h, hws, h1, h2, h3, h4, h5, h6, -, -⟩ := renderInt_head n
    have hp := parseNumber_renderInt n rest hsep
    rw [render]
    rw [h, List.cons_append] at hp ⊢
    exact parseValue_number f c _ n rest hws h1 h2 h3 h4 h5 h6 hp
  | Json.str s, fuel, rest, _, hf => by
    obtain ⟨f, rfl⟩ : ∃ f, fuel = f + 1 := ⟨fuel - 1, by omega⟩
    obtain ⟨body, hb, hp⟩ := parseStringBody_renderString s rest
    rw [render, hb]
    exact parseValue_string f body s.data rest hp
  | Json.arr xs, fuel, rest, _, hf => by
    obtain ⟨f, rfl⟩ : ∃ f, fuel = f + 1 := ⟨fuel - 1, by omega⟩
    have ih := parseElems_render xs f rest
    rw [render] at hf ⊢
    cases xs with
    | nil => exact parseValue_arr_nil f rest
    | cons x xs =>
      obtain ⟨c, t, h, hws, hc⟩ := renderElems_head x xs
      have hlen : (renderElems (x :: xs)).length + 2 = ('[' :: (renderElems (x :: xs) ++ [']'])).length := by
        simp
      have ih2 := ih (by simp) (by omega)
      rw [List.cons_append, List.append_assoc, List.singleton_append]
      rw [h, List.cons_append] at ih2 ⊢
      exact parseValue_arr f c _ (x :: xs) rest hws hc ih2
  | Json.obj ms, fuel, rest, _, hf => by
    obtain ⟨f, rfl⟩ : ∃ f, fuel = f + 1 := ⟨fuel - 1, by omega⟩
    have ih := parseMembers_render ms f rest
    rw [render] at hf ⊢
    cases ms with
    | nil => exact parseValue_obj_nil f rest
    | cons m ms =>
      have hlen : (renderMembers (m :: ms)).length + 2 = ('{' :: (renderMembers (m :: ms) ++ ['}'])).length := by
        simp
      have ih2 := ih (by simp) (by omega)
      have hhead : ∃ t, renderMembers (m :: ms) = '"' :: t := by
        obtain ⟨k, v⟩ := m
        cases ms with
        | nil => exact ⟨_, by rw [renderMembers, renderString]; rfl⟩
        | cons m2 ms2 => exact ⟨_, by rw [renderMembers, renderString]; rfl⟩
      obtain ⟨t, h⟩ := hhead
      rw [List.cons_append, List.append_assoc, List.singleton_append]
      rw [h, List.cons_append] at ih2 ⊢
      exact parseValue_obj f '"' _ (m :: ms) rest (by decide) (by decide) ih2
theorem parseElems_render : ∀ (xs : List Json) (fuel : Nat) (rest : List Char),
    xs ≠ [] → 2 * (renderElems xs).length + 2 ≤ fuel →
    parseElems fuel (renderElems xs ++ ']' :: rest) = some (xs, rest)
  | [], _, _, hne, _ => absurd rfl hne
  | x :: xs, fuel, rest, _, hf => by
    obtain ⟨f, rfl⟩ : ∃ f, fuel = f + 1 := ⟨fuel - 1, by omega⟩
    have ihx := parseValue_render x f
    have ihxs := parseElems_render xs f rest
    cases xs with
    | nil =>
      rw [renderElems] at hf ⊢
      exact parseElems_last f _ x rest
        (ihx (']' :: rest) (sep_cons _ _ (by decide)) (by omega))
    | cons y ys =>
      rw [renderElems] at hf ⊢
      simp only [List.length_append, List.length_cons] at hf
      rw [List.append_assoc, List.cons_append]
      exact parseElems_more f _ x (y :: ys) _ rest
        (ihx _ (sep_cons _ _ (by decide)) (by omega))
        (ihxs (by simp) (by omega))
theorem parseMembers_render : ∀ (ms : List (String × Json)) (fuel : Nat) (rest : List Char),
    ms ≠ [] → 2 * (renderMembers ms).length + 2 ≤ fuel →
    parseMembers fuel (renderMembers ms ++ '}' :: rest) = some (ms, rest)
  | [], _, _, hne, _ => absurd rfl hne
  | (k, v) :: ms, fuel, rest, _, hf => by
    obtain ⟨f, rfl⟩ : ∃ f, fuel = f + 1 := ⟨fuel - 1, by omega⟩
    have ihv := parseValue_render v f
    have ihms := parseMembers_render ms f rest
    cases ms with
    | nil =>
      rw [renderMembers] at hf ⊢
      simp only [List.length_append, List.length_cons] at hf
      rw [List.append_assoc, List.cons_append]
      obtain ⟨body, hb, hp⟩ := parseStringBody_renderString k (':' :: (render v ++ '}' :: rest))
      rw [hb]
      exact parseMembers_last f body k.data _ rest v hp
        (ihv ('}' :: rest) (sep_cons _ _ (by decide)) (by omega))
    | cons m2 ms2 =>
      rw [renderMembers] at hf ⊢
      simp only [List.length_append, List.length_cons] at hf
      rw [List.append_assoc, List.cons_append, List.append_assoc, List.cons_append]
      obtain ⟨body, hb, hp⟩ := parseStringBody_renderString k
        (':' :: (render v ++ ',' :: (renderMembers (m2 :: ms2) ++ '}' :: rest)))
      rw [hb]
      exact parseMembers_more f body k.data _ _ rest v (m2 :: ms2) hp
        (ihv _ (sep_cons _ _ (by decide)) (by omega))
        (ihms (by simp) (by omega))
end

theorem parseJSON_render (j : Json) : parseJSON (render j) = Except.ok j := by
  unfold parseJSON
  have h := parseValue_render j (2 * (render j).length + 2) [] (by intro c t h; simp at h)
    (by omega)
  rw [List.append_nil] at h
  rw [h]
  rfl

/-! ## Theorems: the wire form -/

theorem render_ne_nil (j : Json) : (render j).length ≠ 0 := by
  obtain ⟨c, t, h, -⟩ := render_head j
  rw [h]; simp

theorem metadata_decode_toJson (m : Metadata) :
    decodeStruct Metadata.decodeField (Metadata.toJson m) Metadata.zero = Except.ok m := by
  obtain ⟨name, ns, ⟨t⟩, ⟨i, hi⟩⟩ := m
  by_cases h1 : t = 0 <;> by_cases h2 : i = 0
  · subst h1 h2
    simp [Metadata.toJson, decodeStruct, decodeObject, Metadata.decodeField, decodeString,
      Time.IsZero, Except.map, Metadata.zero, Time.zero, Int64.zero]
  · subst h1
    simp [Metadata.toJson, decodeStruct, decodeObject, Metadata.decodeField, decodeString,
      decodeInt64, Int64.ofInt?, hi, h2,
      Time.IsZero, Except.map, Metadata.zero, Time.zero, Int64.zero]
  · subst h2
    simp [Metadata.toJson, decodeStruct, decodeObject, Metadata.decodeField, decodeString,
      decodeTime, h1,
      Time.IsZero, Except.map, Metadata.zero, Time.zero, Int64.zero]
  · simp [Metadata.toJson, decodeStruct, decodeObject, Metadata.decodeField, decodeString,
      decodeTime, h1, decodeInt64, Int64.ofInt?, hi, h2,
      Time.IsZero, Except.map, Metadata.zero, Time.zero, Int64.zero]

theorem decodeObject_entries (l : List (String × String)) (acc : List (String × String)) :
    ∃ entries, decodeObject decodeEntry (l.map fun kv => (kv.1, Json.str kv.2)) acc =
      Except.ok entries := by
  induction l generalizing acc with
  | nil => exact ⟨acc, rfl⟩
  | cons kv l ih =>
    obtain ⟨entries, h⟩ := ih (mapSet kv.1 kv.2 acc)
    exact ⟨entries, by simpa [decodeObject, decodeEntry, decodeString] using h⟩

theorem decodeStringMap_toJson (env old : StringMap) :
    ∃ env1, decodeStringMap (StringMap.toJson env) old = Except.ok env1 := by
  cases env with
  | none => exact ⟨none, rfl⟩
  | some entries =>
    obtain ⟨es, h⟩ := decodeObject_entries (sortByKey entries) (old.getD [])
    exact ⟨some es, by simp [StringMap.toJson, decodeStringMap, h]⟩

theorem spec_decode_toJson (s : PAMConfigSpecV1) :
    ∃ env, decodeStruct PAMConfigSpecV1.decodeField (PAMConfigSpecV1.toJson s)
        PAMConfigSpecV1.zero = Except.ok { s with Environment := env } := by
  obtain ⟨env, h⟩ := decodeStringMap_toJson s.Environment none
  refine ⟨env, ?_⟩
  simp [PAMConfigSpecV1.toJson, decodeStruct, decodeObject, PAMConfigSpecV1.decodeField,
    decodeBool, decodeString, Except.map, PAMConfigSpecV1.zero, h]

theorem fromJson_toJson (c : PAMConfigV1) :
    ∃ env, PAMConfigV1.fromJson c.toJson PAMConfigV1.zero =
      Except.ok { c with Spec := { c.Spec with Environment := env } } := by
  obtain ⟨env, h⟩ := spec_decode_toJson c.Spec
  refine ⟨env, ?_⟩
  have hm := metadata_decode_toJson c.Metadata
  unfold PAMConfigV1.fromJson PAMConfigV1.toJson
  rw [decodeStruct.eq_def]
  by_cases hs : c.SubKind = ""
  · simp [decodeObject, PAMConfigV1.decodeField, decodeString, Except.map, hs,
      PAMConfigV1.zero, hm, h]
  · simp [decodeObject, PAMConfigV1.decodeField, decodeString, Except.map, hs,
      PAMConfigV1.zero, hm, h]

/-! ## Theorems: the codec -/

theorem checkMembers_error_of_mem (schema : Schema) (ms : List (String × Json)) (k : String)
    (v : Json) (e : String) (hmem : (k, v) ∈ ms)
    (hbad : schema.checkMember k v = Except.error e) :
    ∃ e1, schema.checkMembers ms = Except.error e1 := by
  induction ms with
  | nil => simp at hmem
  | cons m ms ih =>
    obtain ⟨k1, v1⟩ := m
    rw [Schema.checkMembers]
    cases h1 : schema.checkMember k1 v1 with
    | error e1 => exact ⟨e1, rfl⟩
    | ok u =>
      rcases List.mem_cons.mp hmem with h | h
      · cases h
        rw [hbad] at h1
        cases h1
      · exact ih h

theorem validate_error_of_mem (ms : List (String × Json)) (k : String) (v : Json) (e : String)
    (hmem : (k, v) ∈ ms) (hbad : PAMConfigSchema.checkMember k v = Except.error e) :
    ∃ e1, PAMConfigSchema.validate (Json.obj ms) = Except.error e1 := by
  obtain ⟨e1, h⟩ := checkMembers_error_of_mem PAMConfigSchema ms k v e hmem hbad
  exact ⟨e1, by simp [Schema.validate, PAMConfigSchema, SchemaType.admits] at h ⊢; exact h⟩

theorem unmarshal_validate_fails (bytes : Bytes) (opts : List MarshalOption)
    (cfg : MarshalConfig) (doc : Json) (e : String)
    (hopts : CollectOptions opts MarshalConfig.zero = Except.ok cfg)
    (hskip : cfg.SkipValidation = false)
    (hparse : parseJSON bytes = Except.ok doc)
    (hval : PAMConfigSchema.validate doc = Except.error e) :
    UnmarshalPAMConfig bytes opts = Except.error (trace.BadParameter e) := by
  unfold UnmarshalPAMConfig
  by_cases hb : bytes.length = 0
  · have : bytes = [] := List.eq_nil_of_length_eq_zero hb
    subst this
    simp [parseJSON, parseValue, skipWs] at hparse
  · simp [hb, hopts, hskip, UnmarshalWithSchema, hparse, hval]

theorem unmarshal_skip (bytes : Bytes) (opts : List MarshalOption)
    (cfg : MarshalConfig) (doc : Json) (c : PAMConfigV1)
    (hopts : CollectOptions opts MarshalConfig.zero = Except.ok cfg)
    (hskip : cfg.SkipValidation = true)
    (hparse : parseJSON bytes = Except.ok doc)
    (hdec : PAMConfigV1.fromJson doc PAMConfigV1.zero = Except.ok c) :
    ∃ c1, UnmarshalPAMConfig bytes opts = Except.ok c1 ∧ c1.Spec = c.Spec ∧
      c1.Kind = c.Kind ∧ c1.SubKind = c.SubKind ∧ c1.Version = c.Version := by
  unfold UnmarshalPAMConfig
  by_cases hb : bytes.length = 0
  · have : bytes = [] := List.eq_nil_of_length_eq_zero hb
    subst this
    simp [parseJSON, parseValue, skipWs] at hparse
  · simp only [hb, hopts, hskip, FastUnmarshal, hparse, hdec, if_true, if_false]
    by_cases h1 : cfg.ID.val ≠ 0 <;> by_cases h2 : ¬ cfg.Expires.IsZero = true <;>
      simp [h1, h2, PAMConfigV1.SetResourceID, PAMConfigV1.SetExpiry]

/-- Claim C7. On an empty byte slice `UnmarshalPAMConfig` fails with
`BadParameter` "missing resource data", whatever the options are, also when
resolving them would fail. -/
theorem unmarshalPAMConfig_empty (opts : List MarshalOption) :
    UnmarshalPAMConfig [] opts = Except.error (trace.BadParameter "missing resource data") := by
  simp [UnmarshalPAMConfig]

theorem checkMember_undeclared (k : String) (v : Json)
    (h : k ∉ PAMConfigSchema.properties.map Prod.fst) :
    ∃ e, PAMConfigSchema.checkMember k v = Except.error e := by
  simp [PAMConfigSchema] at h
  obtain ⟨h1, h2, h3, h4⟩ := h
  have e1 : (k == "enabled") = false := by simpa using h1
  have e2 : (k == "service_name") = false := by simpa using h2
  have e3 : (k == "use_pam_auth") = false := by simpa using h3
  have e4 : (k == "environment") = false := by simpa using h4
  refine ⟨"additional property " ++ k ++ " is not allowed", ?_⟩
  simp [Schema.checkMember, PAMConfigSchema, List.lookup, e1, e2, e3, e4]

theorem validate_error_of_typeMismatch (ms : List (String × Json)) (h : typeMismatch ms) :
    ∃ e, PAMConfigSchema.validate (Json.obj ms) = Except.error e := by
  rcases h with ⟨v, hm, hv⟩ | ⟨v, hm, hv⟩ | ⟨v, hm, hv⟩ | ⟨v, hm, hv⟩
  · refine validate_error_of_mem ms _ v ("invalid type of property " ++ "enabled") hm ?_
    cases v <;> simp_all [Schema.checkMember, PAMConfigSchema, List.lookup, SchemaType.admits]
  · refine validate_error_of_mem ms _ v ("invalid type of property " ++ "use_pam_auth") hm ?_
    cases v <;> simp_all [Schema.checkMember, PAMConfigSchema, List.lookup, SchemaType.admits]
  · refine validate_error_of_mem ms _ v ("invalid type of property " ++ "service_name") hm ?_
    cases v <;> simp_all [Schema.checkMember, PAMConfigSchema, List.lookup, SchemaType.admits]
  · refine validate_error_of_mem ms _ v ("invalid type of property " ++ "environment") hm ?_
    cases v <;> simp_all [Schema.checkMember, PAMConfigSchema, List.lookup, SchemaType.admits]

/-- Claim C8. For a JSON object that decodes into the resource and has a member
whose name the schema does not declare, `UnmarshalPAMConfig` succeeds under
options that set `skipValidation` and fails with `BadParameter` under options
that do not. -/
theorem unmarshal_additional_property (bytes : Bytes) (ms : List (String × Json))
    (k : String) (v : Json) (c : PAMConfigV1)
    (optsSkip optsCheck : List MarshalOption) (cfgSkip cfgCheck : MarshalConfig)
    (hparse : parseJSON bytes = Except.ok (Json.obj ms))
    (hdec : PAMConfigV1.fromJson (Json.obj ms) PAMConfigV1.zero = Except.ok c)
    (hmem : (k, v) ∈ ms)
    (hundeclared : k ∉ PAMConfigSchema.properties.map Prod.fst)
    (hoptsSkip : CollectOptions optsSkip MarshalConfig.zero = Except.ok cfgSkip)
    (hskip : cfgSkip.SkipValidation = true)
    (hoptsCheck : CollectOptions optsCheck MarshalConfig.zero = Except.ok cfgCheck)
    (hcheck : cfgCheck.SkipValidation = false) :
    (∃ c1, UnmarshalPAMConfig bytes optsSkip = Except.ok c1 ∧ c1.Spec = c.Spec) ∧
    (∃ err, UnmarshalPAMConfig bytes optsCheck = Except.error err ∧
      err.kind = ErrorClass.BadParameter) := by
  constructor
  · obtain ⟨c1, h1, h2, -⟩ := unmarshal_skip bytes optsSkip cfgSkip _ c hoptsSkip hskip hparse hdec
    exact ⟨c1, h1, h2⟩
  · obtain ⟨e, he⟩ := checkMember_undeclared k v hundeclared
    obtain ⟨e1, he1⟩ := validate_error_of_mem ms k v e hmem he
    exact ⟨_, unmarshal_validate_fails bytes optsCheck cfgCheck _ e1 hoptsCheck hcheck hparse he1,
      rfl⟩

theorem unmarshal_additional_property_witness :
    (∃ c1, UnmarshalPAMConfig sampleExtraField [SkipValidation] = Except.ok c1 ∧
      c1.Spec = { PAMConfigSpecV1.zero with ServiceName := "sshd" }) ∧
    (∃ err, UnmarshalPAMConfig sampleExtraField [] = Except.error err ∧
      err.kind = ErrorClass.BadParameter) :=
  unmarshal_additional_property sampleExtraField
    [("spec", Json.obj [("service_name", Json.str "sshd"), ("extra_field", Json.num 1)])]
    "spec" (Json.obj [("service_name", Json.str "sshd"), ("extra_field", Json.num 1)])
    { PAMConfigV1.zero with Spec := { PAMConfigSpecV1.zero with ServiceName := "sshd" } }
    [SkipValidation] [] { MarshalConfig.zero with SkipValidation := true } MarshalConfig.zero
    rfl rfl (by simp) (by decide) rfl rfl rfl rfl

/-- Claim C9. Without `skipValidation`, `UnmarshalPAMConfig` fails with
`BadParameter` on every JSON object in which `enabled` or `use_pam_auth` is
not a boolean, `service_name` is not a string or `environment` is not an
object, whether the field stands at the top of the document, where the schema
is applied, or inside its `spec` member. -/
theorem unmarshal_type_mismatch (bytes : Bytes) (ms : List (String × Json))
    (opts : List MarshalOption) (cfg : MarshalConfig)
    (hparse : parseJSON bytes = Except.ok (Json.obj ms))
    (hbad : typeMismatch ms ∨ ∃ sms, ("spec", Json.obj sms) ∈ ms ∧ typeMismatch sms)
    (hopts : CollectOptions opts MarshalConfig.zero = Except.ok cfg)
    (hcheck : cfg.SkipValidation = false) :
    ∃ err, UnmarshalPAMConfig bytes opts = Except.error err ∧
      err.kind = ErrorClass.BadParameter := by
  have hval : ∃ e, PAMConfigSchema.validate (Json.obj ms) = Except.error e := by
    rcases hbad with h | ⟨sms, hm, -⟩
    · exact validate_error_of_typeMismatch ms h
    · obtain ⟨e, he⟩ := checkMember_undeclared "spec" (Json.obj sms) (by decide)
      exact validate_error_of_mem ms _ _ e hm he
  obtain ⟨e, he⟩ := hval
  exact ⟨_, unmarshal_validate_fails bytes opts cfg _ e hopts hcheck hparse he, rfl⟩

theorem unmarshal_type_mismatch_witness :
    ∃ err, UnmarshalPAMConfig sampleWrongType [] = Except.error err ∧
      err.kind = ErrorClass.BadParameter :=
  unmarshal_type_mismatch sampleWrongType [("enabled", Json.num 1)] [] MarshalConfig.zero rfl
    (Or.inl (Or.inl ⟨Json.num 1, by simp, by simp⟩)) rfl rfl

theorem newPAMConfig_fails_of_empty (E : Externals) (spec : PAMConfigSpecV1)
    (hname : spec.ServiceName = "") : ∃ err, NewPAMConfig E spec = Except.error err := by
  unfold NewPAMConfig PAMConfigV1.CheckAndSetDefaults
  cases h : (E.metadataCheckAndSetDefaults (newMetadata E)).2 with
  | some err => exact ⟨err, by simp [h, trace.Wrap]⟩
  | none => exact ⟨trace.BadParameter "service name cannot be empty", by simp [h, hname, trace.Wrap]⟩

/-- Claim C10. For every resource with an empty service name, marshalling
succeeds and unmarshalling the result under options that set `skipValidation`
succeeds with a resource whose service name is empty, although `NewPAMConfig`
fails on the same spec. -/
theorem unmarshal_marshal_empty_serviceName (r : PAMConfigV1)
    (marshalOpts opts : List MarshalOption) (cfg : MarshalConfig)
    (hname : r.Spec.ServiceName = "")
    (hopts : CollectOptions opts MarshalConfig.zero = Except.ok cfg)
    (hskip : cfg.SkipValidation = true) :
    ∃ bytes c, MarshalPAMConfig r marshalOpts = Except.ok bytes ∧
      UnmarshalPAMConfig bytes opts = Except.ok c ∧ c.GetServiceName = "" ∧
      ∀ E, ∃ err, NewPAMConfig E r.Spec = Except.error err := by
  obtain ⟨env, hdec⟩ := fromJson_toJson r
  obtain ⟨c, hc, hspec, -⟩ := unmarshal_skip (render r.toJson) opts cfg r.toJson _ hopts hskip
    (parseJSON_render r.toJson) hdec
  refine ⟨render r.toJson, c, rfl, hc, ?_, fun E => newPAMConfig_fails_of_empty E r.Spec hname⟩
  simp [PAMConfigV1.GetServiceName, hspec, hname]

theorem unmarshal_marshal_empty_serviceName_witness :
    ∃ bytes c, MarshalPAMConfig sampleInvalid [] = Except.ok bytes ∧
      UnmarshalPAMConfig bytes [SkipValidation] = Except.ok c ∧ c.GetServiceName = "" ∧
      ∀ E, ∃ err, NewPAMConfig E sampleInvalid.Spec = Except.error err :=
  unmarshal_marshal_empty_serviceName sampleInvalid [] [SkipValidation]
    { MarshalConfig.zero with SkipValidation := true } rfl rfl rfl

theorem validate_toJson (c : PAMConfigV1) :
    PAMConfigSchema.validate c.toJson =
      Except.error "additional property kind is not allowed" := by
  simp [PAMConfigV1.toJson, Schema.validate, SchemaType.admits, PAMConfigSchema,
    Schema.checkMembers, Schema.checkMember, List.lookup]

theorem unmarshal_marshal_validated (c : PAMConfigV1) (opts : List MarshalOption)
    (cfg : MarshalConfig) (hopts : CollectOptions opts MarshalConfig.zero = Except.ok cfg)
    (hcheck : cfg.SkipValidation = false) :
    UnmarshalPAMConfig (render c.toJson) opts =
      Except.error (trace.BadParameter "additional property kind is not allowed") :=
  unmarshal_validate_fails _ opts cfg c.toJson _ hopts hcheck (parseJSON_render c.toJson)
    (validate_toJson c)

/-- Claim C1, which the code does not meet. For the spec of the example,
`NewPAMConfig` and `MarshalPAMConfig` succeed and `UnmarshalPAMConfig` with
default options rejects the result: the schema, applied to the whole
document, does not allow the member `kind`. -/
theorem roundtrip_rejected :
    ∃ c bytes, NewPAMConfig sampleExternals sampleSpec = Except.ok c ∧
      MarshalPAMConfig c [] = Except.ok bytes ∧
      UnmarshalPAMConfig bytes [] =
        Except.error (trace.BadParameter "additional property kind is not allowed") :=
  ⟨_, _, rfl, rfl, unmarshal_marshal_validated _ [] MarshalConfig.zero rfl rfl⟩

/-! ## Theorems: the options of the codec -/

theorem unmarshal_ok_inv (bytes : Bytes) (opts : List MarshalOption) (cfg : MarshalConfig)
    (c : PAMConfigV1) (hopts : CollectOptions opts MarshalConfig.zero = Except.ok cfg)
    (hres : UnmarshalPAMConfig bytes opts = Except.ok c) :
    bytes.length ≠ 0 ∧
    ∃ d, (if cfg.SkipValidation then FastUnmarshal bytes PAMConfigV1.zero
          else UnmarshalWithSchema PAMConfigSchema PAMConfigV1.zero bytes) = Except.ok d ∧
      c = (if ¬ cfg.Expires.IsZero then
            PAMConfigV1.SetExpiry (if cfg.ID.val ≠ 0 then d.SetResourceID cfg.ID else d)
              cfg.Expires
          else (if cfg.ID.val ≠ 0 then d.SetResourceID cfg.ID else d)) := by
  unfold UnmarshalPAMConfig at hres
  by_cases hb : bytes.length = 0
  · simp [hb] at hres
  · refine ⟨hb, ?_⟩
    simp only [hb, hopts, if_false] at hres
    cases hd : (if cfg.SkipValidation then FastUnmarshal bytes PAMConfigV1.zero
          else UnmarshalWithSchema PAMConfigSchema PAMConfigV1.zero bytes) with
    | error e => simp [hd] at hres
    | ok d =>
      refine ⟨d, rfl, ?_⟩
      simp only [hd] at hres
      exact (Except.ok.inj hres).symm

theorem unmarshal_ok_intro (bytes : Bytes) (opts : List MarshalOption) (cfg : MarshalConfig)
    (d : PAMConfigV1) (hopts : CollectOptions opts MarshalConfig.zero = Except.ok cfg)
    (hb : bytes.length ≠ 0)
    (hd : (if cfg.SkipValidation then FastUnmarshal bytes PAMConfigV1.zero
          else UnmarshalWithSchema PAMConfigSchema PAMConfigV1.zero bytes) = Except.ok d) :
    UnmarshalPAMConfig bytes opts =
      Except.ok (if ¬ cfg.Expires.IsZero then
            PAMConfigV1.SetExpiry (if cfg.ID.val ≠ 0 then d.SetResourceID cfg.ID else d)
              cfg.Expires
          else (if cfg.ID.val ≠ 0 then d.SetResourceID cfg.ID else d)) := by
  unfold UnmarshalPAMConfig
  simp only [hb, hopts, if_false, hd]

/-- Claim C11. Whenever `UnmarshalPAMConfig` succeeds, its result is the result
of the same call without the id option with only the resource ID replaced:
a non-zero id of the options is the resource ID of the result, and with id
zero the resource ID is the one decoded from the bytes. -/
theorem unmarshal_id_option (bytes : Bytes) (opts optsNoID : List MarshalOption)
    (cfg : MarshalConfig) (c : PAMConfigV1)
    (hopts : CollectOptions opts MarshalConfig.zero = Except.ok cfg)
    (hnoid : CollectOptions optsNoID MarshalConfig.zero =
      Except.ok { cfg with ID := Int64.zero })
    (hres : UnmarshalPAMConfig bytes opts = Except.ok c) :
    ∃ d c0,
      (if cfg.SkipValidation then FastUnmarshal bytes PAMConfigV1.zero
        else UnmarshalWithSchema PAMConfigSchema PAMConfigV1.zero bytes) = Except.ok d ∧
      UnmarshalPAMConfig bytes optsNoID = Except.ok c0 ∧
      c0.GetResourceID = d.GetResourceID ∧
      (cfg.ID.val ≠ 0 → c.GetResourceID = cfg.ID) ∧
      (cfg.ID.val = 0 → c.GetResourceID = d.GetResourceID) ∧
      c = c0.SetResourceID c.GetResourceID := by
  obtain ⟨hb, d, hd, hc⟩ := unmarshal_ok_inv bytes opts cfg c hopts hres
  have h0 := unmarshal_ok_intro bytes optsNoID { cfg with ID := Int64.zero } d hnoid hb hd
  refine ⟨d, _, hd, h0, ?_, ?_, ?_, ?_⟩
  · by_cases h2 : cfg.Expires.IsZero = true <;>
      simp [h2, Int64.zero, PAMConfigV1.GetResourceID, PAMConfigV1.SetExpiry, Metadata.SetExpiry]
  · intro h1
    subst hc
    by_cases h2 : cfg.Expires.IsZero = true <;>
      simp [h1, h2, PAMConfigV1.GetResourceID, PAMConfigV1.SetExpiry, Metadata.SetExpiry,
        PAMConfigV1.SetResourceID]
  · intro h1
    subst hc
    by_cases h2 : cfg.Expires.IsZero = true <;>
      simp [h1, h2, PAMConfigV1.GetResourceID, PAMConfigV1.SetExpiry, Metadata.SetExpiry,
        PAMConfigV1.SetResourceID]
  · subst hc
    by_cases h1 : cfg.ID.val = 0 <;> by_cases h2 : cfg.Expires.IsZero = true <;>
      simp [h1, h2, Int64.zero, PAMConfigV1.GetResourceID, PAMConfigV1.SetExpiry,
        Metadata.SetExpiry, PAMConfigV1.SetResourceID]

theorem unmarshal_id_option_witness :
    ∃ d c0,
      FastUnmarshal sampleExtraField PAMConfigV1.zero = Except.ok d ∧
      UnmarshalPAMConfig sampleExtraField [SkipValidation] = Except.ok c0 ∧
      c0.GetResourceID = d.GetResourceID ∧
      (sampleDecoded.SetResourceID sampleID).GetResourceID = sampleID ∧
      sampleDecoded.SetResourceID sampleID = c0.SetResourceID sampleID := by
  obtain ⟨d, c0, h1, h2, h3, h4, -, h6⟩ :=
    unmarshal_id_option sampleExtraField [SkipValidation, WithResourceID sampleID]
      [SkipValidation] { MarshalConfig.zero with SkipValidation := true, ID := sampleID }
      (sampleDecoded.SetResourceID sampleID) rfl rfl rfl
  exact ⟨d, c0, h1, h2, h3, h4 (by decide), h6⟩

/-- Claim C12. Whenever `UnmarshalPAMConfig` succeeds, its result is the result
of the same call without the expires option with only the expiry replaced:
a non-zero expires of the options is the expiry of the result, and with the
zero time the expiry is the one decoded from the bytes. -/
theorem unmarshal_expires_option (bytes : Bytes) (opts optsNoExpires : List MarshalOption)
    (cfg : MarshalConfig) (c : PAMConfigV1)
    (hopts : CollectOptions opts MarshalConfig.zero = Except.ok cfg)
    (hnoexp : CollectOptions optsNoExpires MarshalConfig.zero =
      Except.ok { cfg with Expires := Time.zero })
    (hres : UnmarshalPAMConfig bytes opts = Except.ok c) :
    ∃ d c0,
      (if cfg.SkipValidation then FastUnmarshal bytes PAMConfigV1.zero
        else UnmarshalWithSchema PAMConfigSchema PAMConfigV1.zero bytes) = Except.ok d ∧
      UnmarshalPAMConfig bytes optsNoExpires = Except.ok c0 ∧
      c0.Expiry = d.Expiry ∧
      (cfg.Expires.IsZero = false → c.Expiry = cfg.Expires) ∧
      (cfg.Expires.IsZero = true → c.Expiry = d.Expiry) ∧
      c = c0.SetExpiry c.Expiry := by
  obtain ⟨hb, d, hd, hc⟩ := unmarshal_ok_inv bytes opts cfg c hopts hres
  have h0 := unmarshal_ok_intro bytes optsNoExpires { cfg with Expires := Time.zero } d hnoexp hb hd
  refine ⟨d, _, hd, h0, ?_, ?_, ?_, ?_⟩
  · by_cases h1 : cfg.ID.val = 0 <;>
      simp [h1, Time.zero, Time.IsZero, PAMConfigV1.Expiry, Metadata.Expiry,
        PAMConfigV1.SetResourceID]
  · intro h2
    subst hc
    simp [h2, PAMConfigV1.Expiry, Metadata.Expiry, PAMConfigV1.SetExpiry, Metadata.SetExpiry]
  · intro h2
    subst hc
    by_cases h1 : cfg.ID.val = 0 <;>
      simp [h1, h2, PAMConfigV1.Expiry, Metadata.Expiry, PAMConfigV1.SetResourceID]
  · subst hc
    have hz : Time.zero.IsZero = true := rfl
    by_cases h1 : cfg.ID.val = 0 <;> by_cases h2 : cfg.Expires.IsZero = true <;>
      simp [h1, h2, hz, PAMConfigV1.Expiry, Metadata.Expiry,
        PAMConfigV1.SetExpiry, Metadata.SetExpiry, PAMConfigV1.SetResourceID]

theorem unmarshal_expires_option_witness :
    ∃ d c0,
      FastUnmarshal sampleExtraField PAMConfigV1.zero = Except.ok d ∧
      UnmarshalPAMConfig sampleExtraField [SkipValidation] = Except.ok c0 ∧
      c0.Expiry = d.Expiry ∧
      (sampleDecoded.SetExpiry sampleExpires).Expiry = sampleExpires ∧
      sampleDecoded.SetExpiry sampleExpires = c0.SetExpiry sampleExpires := by
  obtain ⟨d, c0, h1, h2, h3, h4, -, h6⟩ :=
    unmarshal_expires_option sampleExtraField [SkipValidation, WithExpires sampleExpires]
      [SkipValidation] { MarshalConfig.zero with SkipValidation := true, Expires := sampleExpires }
      (sampleDecoded.SetExpiry sampleExpires) rfl rfl rfl
  exact ⟨d, c0, h1, h2, h3, h4 (by decide), h6⟩

/-- Claim C15. Under options that do not set `skipValidation`, every JSON
object with a member at its top whose name is not `enabled`, `service_name`,
`use_pam_auth` or `environment` makes `UnmarshalPAMConfig` fail with
`BadParameter`, and so does every output of `MarshalPAMConfig`. -/
theorem unmarshal_schema_whole_document (opts : List MarshalOption) (cfg : MarshalConfig)
    (hopts : CollectOptions opts MarshalConfig.zero = Except.ok cfg)
    (hcheck : cfg.SkipValidation = false) :
    (∀ bytes ms k v, parseJSON bytes = Except.ok (Json.obj ms) → (k, v) ∈ ms →
      k ∉ ["enabled", "service_name", "use_pam_auth", "environment"] →
      ∃ err, UnmarshalPAMConfig bytes opts = Except.error err ∧
        err.kind = ErrorClass.BadParameter) ∧
    (∀ r marshalOpts, ∃ bytes, MarshalPAMConfig r marshalOpts = Except.ok bytes ∧
      ∃ err, UnmarshalPAMConfig bytes opts = Except.error err ∧
        err.kind = ErrorClass.BadParameter) := by
  constructor
  · intro bytes ms k v hparse hmem hk
    obtain ⟨e, he⟩ := checkMember_undeclared k v hk
    obtain ⟨e1, he1⟩ := validate_error_of_mem ms k v e hmem he
    exact ⟨_, unmarshal_validate_fails bytes opts cfg _ e1 hopts hcheck hparse he1, rfl⟩
  · intro r marshalOpts
    exact ⟨render r.toJson, rfl, _, unmarshal_marshal_validated r opts cfg hopts hcheck, rfl⟩

theorem unmarshal_schema_whole_document_witness :
    (∃ err, UnmarshalPAMConfig sampleExtraField [] = Except.error err ∧
      err.kind = ErrorClass.BadParameter) ∧
    (∃ bytes, MarshalPAMConfig sampleInvalid [] = Except.ok bytes ∧
      ∃ err, UnmarshalPAMConfig bytes [] = Except.error err ∧
        err.kind = ErrorClass.BadParameter) :=
  ⟨(unmarshal_schema_whole_document [] MarshalConfig.zero rfl rfl).1 sampleExtraField
      [("spec", Json.obj [("service_name", Json.str "sshd"), ("extra_field", Json.num 1)])]
      "spec" (Json.obj [("service_name", Json.str "sshd"), ("extra_field", Json.num 1)])
      rfl (by simp) (by decide),
    (unmarshal_schema_whole_document [] MarshalConfig.zero rfl rfl).2 sampleInvalid []⟩

/-! ## Theorems: the marshalled document -/

theorem mem_insertByKey (k v : String) (l : List (String × String)) (x : String × String) :
    x ∈ insertByKey k v l ↔ x = (k, v) ∨ x ∈ l := by
  induction l with
  | nil => simp [insertByKey]
  | cons y l ih =>
    obtain ⟨k1, v1⟩ := y
    rw [insertByKey]
    by_cases h : k < k1
    · simp [h]
    · simp only [h, if_false, List.mem_cons, ih]
      tauto

theorem mem_sortByKey (l : List (String × String)) (x : String × String) :
    x ∈ sortByKey l ↔ x ∈ l := by
  induction l with
  | nil => simp [sortByKey]
  | cons y l ih =>
    obtain ⟨k, v⟩ := y
    rw [sortByKey, mem_insertByKey, ih, List.mem_cons]

/-- Claim C13. `MarshalPAMConfig` succeeds on every resource, whatever its
service name, and the text it returns is a JSON object with the members
`kind`, `version`, `metadata` and `spec`, with `sub_kind` exactly when the
sub-kind is not empty, and whose `spec` member is an object with `enabled`,
`service_name`, `use_pam_auth` and `environment` holding the fields of the
spec: `null` for the nil map, else an object with the entries of the map. -/
theorem marshal_document (r : PAMConfigV1) (opts : List MarshalOption) :
    ∃ bytes ms specMs, MarshalPAMConfig r opts = Except.ok bytes ∧
      parseJSON bytes = Except.ok (Json.obj ms) ∧
      ms.lookup "kind" = some (Json.str r.Kind) ∧
      ms.lookup "version" = some (Json.str r.Version) ∧
      ms.lookup "metadata" = some (Metadata.toJson r.Metadata) ∧
      ms.lookup "spec" = some (Json.obj specMs) ∧
      ((ms.lookup "sub_kind").isSome ↔ r.SubKind ≠ "") ∧
      (r.SubKind ≠ "" → ms.lookup "sub_kind" = some (Json.str r.SubKind)) ∧
      specMs.lookup "enabled" = some (Json.bool r.Spec.Enabled) ∧
      specMs.lookup "service_name" = some (Json.str r.Spec.ServiceName) ∧
      specMs.lookup "use_pam_auth" = some (Json.bool r.Spec.UsePAMAuth) ∧
      (r.Spec.Environment = none → specMs.lookup "environment" = some Json.null) ∧
      (∀ entries, r.Spec.Environment = some entries →
        ∃ ems, specMs.lookup "environment" = some (Json.obj ems) ∧
          ∀ k j, (k, j) ∈ ems ↔ ∃ v, j = Json.str v ∧ (k, v) ∈ entries) := by
  refine ⟨render r.toJson,
    [("kind", Json.str r.Kind)]
      ++ (if r.SubKind = "" then [] else [("sub_kind", Json.str r.SubKind)])
      ++ [("version", Json.str r.Version), ("metadata", Metadata.toJson r.Metadata),
          ("spec", PAMConfigSpecV1.toJson r.Spec)],
    [("enabled", Json.bool r.Spec.Enabled), ("service_name", Json.str r.Spec.ServiceName),
      ("use_pam_auth", Json.bool r.Spec.UsePAMAuth),
      ("environment", StringMap.toJson r.Spec.Environment)],
    rfl, parseJSON_render r.toJson, ?_, ?_, ?_, ?_, ?_, ?_, ?_, ?_, ?_, ?_, ?_⟩
  · by_cases hs : r.SubKind = "" <;> simp [hs, List.lookup]
  · by_cases hs : r.SubKind = "" <;> simp [hs, List.lookup]
  · by_cases hs : r.SubKind = "" <;> simp [hs, List.lookup]
  · by_cases hs : r.SubKind = "" <;> simp [hs, List.lookup, PAMConfigSpecV1.toJson]
  · by_cases hs : r.SubKind = "" <;> simp [hs, List.lookup]
  · intro hs; simp [hs, List.lookup]
  · simp [List.lookup]
  · simp [List.lookup]
  · simp [List.lookup]
  · intro h; simp [List.lookup, h, StringMap.toJson]
  · intro entries h
    refine ⟨_, by simp [List.lookup, h, StringMap.toJson]; rfl, ?_⟩
    intro k j
    simp only [List.mem_map]
    constructor
    · rintro ⟨⟨k1, v1⟩, hm, he⟩
      cases he
      exact ⟨v1, rfl, (mem_sortByKey _ _).mp hm⟩
    · rintro ⟨v, rfl, hm⟩
      exact ⟨(k, v), (mem_sortByKey _ _).mpr hm, rfl⟩

/-! ## Theorems: setters and frame -/

/-- Claim C16. `CheckAndSetDefaults` leaves the kind, the sub-kind, the version
and the whole spec of every resource as they were, whether it returns an
error or not. -/
theorem checkAndSetDefaults_frame (E : Externals) (c : PAMConfigV1) :
    (PAMConfigV1.CheckAndSetDefaults E c).1.GetKind = c.GetKind ∧
    (PAMConfigV1.CheckAndSetDefaults E c).1.GetSubKind = c.GetSubKind ∧
    (PAMConfigV1.CheckAndSetDefaults E c).1.GetVersion = c.GetVersion ∧
    (PAMConfigV1.CheckAndSetDefaults E c).1.Spec = c.Spec ∧
    (PAMConfigV1.CheckAndSetDefaults E c).1.GetEnabled = c.GetEnabled ∧
    (PAMConfigV1.CheckAndSetDefaults E c).1.GetServiceName = c.GetServiceName ∧
    (PAMConfigV1.CheckAndSetDefaults E c).1.GetUsePAMAuth = c.GetUsePAMAuth ∧
    (PAMConfigV1.CheckAndSetDefaults E c).1.GetEnvironment = c.GetEnvironment := by
  rw [checkAndSetDefaults_state]
  exact ⟨rfl, rfl, rfl, rfl, rfl, rfl, rfl, rfl⟩

/-- Claim C14. After each of the seven setters the matching getter returns the
value set, for every value, the empty service name included, and every other
attribute of the resource is as before. -/
theorem setters_get_set (c : PAMConfigV1) :
    (∀ v, (c.SetEnabled v).GetEnabled = v ∧
      (c.SetEnabled v).GetServiceName = c.GetServiceName ∧
      (c.SetEnabled v).GetUsePAMAuth = c.GetUsePAMAuth ∧
      (c.SetEnabled v).GetEnvironment = c.GetEnvironment ∧
      (c.SetEnabled v).GetKind = c.GetKind ∧ (c.SetEnabled v).GetSubKind = c.GetSubKind ∧
      (c.SetEnabled v).GetVersion = c.GetVersion ∧
      (c.SetEnabled v).GetMetadata = c.GetMetadata) ∧
    (∀ v, (c.SetServiceName v).GetServiceName = v ∧
      (c.SetServiceName v).GetEnabled = c.GetEnabled ∧
      (c.SetServiceName v).GetUsePAMAuth = c.GetUsePAMAuth ∧
      (c.SetServiceName v).GetEnvironment = c.GetEnvironment ∧
      (c.SetServiceName v).GetKind = c.GetKind ∧
      (c.SetServiceName v).GetSubKind = c.GetSubKind ∧
      (c.SetServiceName v).GetVersion = c.GetVersion ∧
      (c.SetServiceName v).GetMetadata = c.GetMetadata) ∧
    (∀ v, (c.SetUsePAMAuth v).GetUsePAMAuth = v ∧
      (c.SetUsePAMAuth v).GetEnabled = c.GetEnabled ∧
      (c.SetUsePAMAuth v).GetServiceName = c.GetServiceName ∧
      (c.SetUsePAMAuth v).GetEnvironment = c.GetEnvironment ∧
      (c.SetUsePAMAuth v).GetKind = c.GetKind ∧
      (c.SetUsePAMAuth v).GetSubKind = c.GetSubKind ∧
      (c.SetUsePAMAuth v).GetVersion = c.GetVersion ∧
      (c.SetUsePAMAuth v).GetMetadata = c.GetMetadata) ∧
    (∀ v, (c.SetEnvironment v).GetEnvironment = v ∧
      (c.SetEnvironment v).GetEnabled = c.GetEnabled ∧
      (c.SetEnvironment v).GetServiceName = c.GetServiceName ∧
      (c.SetEnvironment v).GetUsePAMAuth = c.GetUsePAMAuth ∧
      (c.SetEnvironment v).GetKind = c.GetKind ∧
      (c.SetEnvironment v).GetSubKind = c.GetSubKind ∧
      (c.SetEnvironment v).GetVersion = c.GetVersion ∧
      (c.SetEnvironment v).GetMetadata = c.GetMetadata) ∧
    (∀ v, (c.SetSubKind v).GetSubKind = v ∧
      (c.SetSubKind v).GetKind = c.GetKind ∧ (c.SetSubKind v).GetVersion = c.GetVersion ∧
      (c.SetSubKind v).GetMetadata = c.GetMetadata ∧ (c.SetSubKind v).Spec = c.Spec) ∧
    (∀ v, (c.SetName v).GetName = v ∧
      (c.SetName v).GetKind = c.GetKind ∧ (c.SetName v).GetSubKind = c.GetSubKind ∧
      (c.SetName v).GetVersion = c.GetVersion ∧ (c.SetName v).Spec = c.Spec ∧
      (c.SetName v).GetMetadata.Namespace = c.GetMetadata.Namespace ∧
      (c.SetName v).Expiry = c.Expiry ∧
      (c.SetName v).GetResourceID = c.GetResourceID) ∧
    (∀ v, (c.SetResourceID v).GetResourceID = v ∧
      (c.SetResourceID v).GetKind = c.GetKind ∧
      (c.SetResourceID v).GetSubKind = c.GetSubKind ∧
      (c.SetResourceID v).GetVersion = c.GetVersion ∧ (c.SetResourceID v).Spec = c.Spec ∧
      (c.SetResourceID v).GetName = c.GetName ∧
      (c.SetResourceID v).GetMetadata.Namespace = c.GetMetadata.Namespace ∧
      (c.SetResourceID v).Expiry = c.Expiry) ∧
    (c.SetServiceName "").GetServiceName = "" := by
  exact ⟨fun _ => ⟨rfl, rfl, rfl, rfl, rfl, rfl, rfl, rfl⟩,
    fun _ => ⟨rfl, rfl, rfl, rfl, rfl, rfl, rfl, rfl⟩,
    fun _ => ⟨rfl, rfl, rfl, rfl, rfl, rfl, rfl, rfl⟩,
    fun _ => ⟨rfl, rfl, rfl, rfl, rfl, rfl, rfl, rfl⟩,
    fun _ => ⟨rfl, rfl, rfl, rfl, rfl⟩,
    fun _ => ⟨rfl, rfl, rfl, rfl, rfl, rfl, rfl, rfl⟩,
    fun _ => ⟨rfl, rfl, rfl, rfl, rfl, rfl, rfl, rfl⟩, rfl⟩

end Teleport
